import Mathlib

/-!
# Verification of the SkSL IR generator front end

A shallow embedding of the SkSL intermediate-representation generator
(`SkSLIRGenerator.cpp`), covering the data model and operations exercised by
the specification's testable properties: constant folding, short-circuit
boolean folding, binary-operand type determination, implicit coercion,
overload resolution, swizzle validation, break/continue legality, array-size
validation, and the loop/switch nesting-depth state machine.

Machine integers from the C++ source are modelled as unbounded `Int` with
explicit reductions modulo `2^32` where the source casts through `uint32_t`;
`int64_t` truncating division and remainder are `Int.tdiv` / `Int.tmod`.
Errors reported through `fErrors.error(offset, msg)` are modelled as a list
of the reported message strings (source offsets carry no semantic content
here); a conversion that reports and returns `nullptr` is `none` paired with
the emitted messages.

Floating-point literals and the float/vector/matrix constant-folding arms are
outside this embedding (floating point); none of the verified properties
touch them.  `FloatLiteral` nodes are represented only as far as they arise
from converting integer literals, carrying the exact integer value.
-/

namespace SkSL

/-- `INT_MAX` from `<limits.h>`: the sentinel for an illegal coercion and an
invalid call (`coercionCost`, `callCost`). -/
def INT_MAX : Int := 2147483647

/-- `INT64_MIN` (`std::numeric_limits<int64_t>::min()`), the operand guarded
against in integer division/remainder folding. -/
def INT64_MIN : Int := -9223372036854775808

/-- The unsigned 64-bit image of an `int64_t` value (two's complement). -/
def toUInt64Bits (x : Int) : Nat := (x % 18446744073709551616).toNat

/-- Reinterpret an unsigned 64-bit value as an `int64_t`. -/
def ofUInt64Bits (n : Nat) : Int :=
  if n < 9223372036854775808 then (n : Int) else (n : Int) - 18446744073709551616

/-- `int64_t` bitwise AND, through the two's-complement bit patterns. -/
def int64And (a b : Int) : Int := ofUInt64Bits (toUInt64Bits a &&& toUInt64Bits b)

/-- `int64_t` bitwise OR. -/
def int64Or (a b : Int) : Int := ofUInt64Bits (toUInt64Bits a ||| toUInt64Bits b)

/-- `int64_t` bitwise XOR. -/
def int64Xor (a b : Int) : Int := ofUInt64Bits (toUInt64Bits a ^^^ toUInt64Bits b)

/-- Reduction of an `int64_t` value through a `(uint32_t)` cast: the unsigned
32-bit value, in `[0, 2^32)`.  `Int.emod` by a positive modulus is exactly the
two's-complement reduction. -/
def uint32 (x : Int) : Int := x % 4294967296

/-- The token kinds (`Token::Kind`) appearing in the converted expressions and
statements. -/
inductive TokenKind where
  | PLUS | MINUS | STAR | SLASH | PERCENT
  | SHL | SHR
  | BITWISEAND | BITWISEOR | BITWISEXOR
  | EQEQ | NEQ | GT | GTEQ | LT | LTEQ
  | LOGICALAND | LOGICALOR | LOGICALXOR
  | LOGICALNOT
  | EQ
  | PLUSEQ | MINUSEQ | STAREQ | SLASHEQ | PERCENTEQ
  | SHLEQ | SHREQ
  | BITWISEANDEQ | BITWISEOREQ | BITWISEXOREQ
  | LOGICALANDEQ | LOGICALOREQ | LOGICALXOREQ
  | COMMA
deriving DecidableEq, Repr

/-- `Compiler::IsAssignment` (declared in the compiler header; the list of
assignment-form operators is fixed by the operator set: `=` and every
`op=` compound form). -/
def IsAssignment : TokenKind → Bool
  | .EQ | .PLUSEQ | .MINUSEQ | .STAREQ | .SLASHEQ | .PERCENTEQ
  | .SHLEQ | .SHREQ
  | .BITWISEANDEQ | .BITWISEOREQ | .BITWISEXOREQ
  | .LOGICALANDEQ | .LOGICALOREQ | .LOGICALXOREQ => true
  | _ => false

/-- The scalar numeric/boolean kinds of the type system.  `intLit` and
`floatLit` are the literal types (`$intLiteral`, `$floatLiteral`) that the
generator's `coerce` special-cases. -/
inductive ScalarKind where
  | bool | int | uint | float | intLit | floatLit
deriving DecidableEq, Repr, Fintype

/-- The `Type` variants reachable from the verified operations: scalars,
vectors and matrices over a scalar component, array types (as synthesized by
`convertVarDeclarations`), `void`, and the invalid/poison sentinel. -/
inductive SkType where
  | scalar (k : ScalarKind)
  | vec (k : ScalarKind) (columns : Nat)
  | mat (k : ScalarKind) (cols rows : Nat)
  | array (base : SkType) (size : Int)
  | void
  | invalid
deriving DecidableEq, Repr

/-- `Type::TypeKind` restricted to the kinds the embedded code inspects. -/
inductive TypeKind where
  | scalar | vector | matrix | array | voidKind | other
deriving DecidableEq, Repr

def SkType.typeKind : SkType → TypeKind
  | .scalar _ => .scalar
  | .vec _ _ => .vector
  | .mat _ _ _ => .matrix
  | .array _ _ => .array
  | .void => .voidKind
  | .invalid => .other

/-- `Type::isNumber()`: a numeric scalar (the boolean scalar is not a
number). -/
def SkType.isNumber : SkType → Bool
  | .scalar .bool => false
  | .scalar _ => true
  | _ => false

/-- `Type::componentType()`. -/
def SkType.componentType : SkType → SkType
  | .scalar k => .scalar k
  | .vec k _ => .scalar k
  | .mat k _ _ => .scalar k
  | .array b _ => b
  | t => t

/-- `Type::columns()`: vector width, matrix column count, 1 for scalars. -/
def SkType.columns : SkType → Nat
  | .vec _ n => n
  | .mat _ c _ => c
  | _ => 1

/-- `Type::rows()`: matrix row count, 1 otherwise. -/
def SkType.rows : SkType → Nat
  | .mat _ _ r => r
  | _ => 1

/-- `Type::toCompound(context, columns, rows)`: the vector or matrix type of
the given shape over a scalar component (identity on a 1x1 shape). -/
def SkType.toCompound (t : SkType) (columns rows : Nat) : SkType :=
  if columns = 1 ∧ rows = 1 then t
  else match t with
    | .scalar k => if rows = 1 then .vec k columns else .mat k columns rows
    | t => t

/-- The scalar type names, as they print in diagnostics. -/
def ScalarKind.name : ScalarKind → String
  | .bool => "bool"
  | .int => "int"
  | .uint => "uint"
  | .float => "float"
  | .intLit => "$intLiteral"
  | .floatLit => "$floatLiteral"

/-- `Type::displayName()` for the modelled types (used only to format error
messages). -/
def SkType.displayName : SkType → String
  | .scalar k => k.name
  | .vec k n => k.name ++ toString n
  | .mat k c r => k.name ++ toString c ++ "x" ++ toString r
  | .array b s => SkType.displayName b ++ "[" ++ toString s ++ "]"
  | .void => "void"
  | .invalid => "<INVALID>"

/-- Modelled from the spec: the implicit scalar widening conversions and
their costs.  `Type::coercionCost` lives in the type system, whose sources
are not among the extracted files; the spec fixes its shape: 0 = identical
type, a low positive cost for each widening numeric conversion, infinite
(`INT_MAX`) otherwise, with boolean-to-numeric never implicit and widening
one-directional (so no two distinct types are mutually coercible). -/
def scalarWideningCost : ScalarKind → ScalarKind → Option Int
  | .intLit, .int => some 1
  | .intLit, .uint => some 1
  | .intLit, .float => some 2
  | .floatLit, .float => some 1
  | .int, .float => some 1
  | .uint, .float => some 1
  | _, _ => none

/-- Modelled from the spec: `Type::coercionCost(other)` — 0 on the identical
type, the widening cost between scalars (componentwise between equal-shape
vectors and matrices), `INT_MAX` when no implicit conversion exists. -/
def coercionCost (t other : SkType) : Int :=
  if t = other then 0
  else match t, other with
    | .scalar k, .scalar k' => (scalarWideningCost k k').getD INT_MAX
    | .vec k n, .vec k' n' =>
        if n = n' then (scalarWideningCost k k').getD INT_MAX else INT_MAX
    | .mat k c r, .mat k' c' r' =>
        if c = c' ∧ r = r' then (scalarWideningCost k k').getD INT_MAX else INT_MAX
    | _, _ => INT_MAX

/-- `Type::canCoerceTo(other)` is `coercionCost(other) != INT_MAX`. -/
def canCoerceTo (t other : SkType) : Bool := coercionCost t other ≠ INT_MAX

/-- `Expression::Kind` restricted to the node kinds of this embedding. -/
inductive ExprKind where
  | boolLiteral | intLiteral | floatLiteral | prefixExpr
  | variableReference | constructor | swizzle
deriving DecidableEq, Repr

/-- The expression IR nodes reachable from the verified operations.

* `intLiteral` is `IntLiteral(fContext, offset, value)` (type `int`).
* `floatLiteral` appears only as the image of an integer literal under a
  scalar coercion (`convertNumberConstructor`); it carries that exact
  integer value.
* `variableReference` carries the referenced variable's type, constness and
  (optional) constant initial value — the fields `getConstantInt` consults.
* `prefixExpression` is produced by short-circuit `^^` folding
  (`PrefixExpression(TK_LOGICALNOT, operand)`). -/
inductive Expression where
  | boolLiteral (value : Bool)
  | intLiteral (value : Int)
  | floatLiteral (value : Int)
  | prefixExpression (op : TokenKind) (operand : Expression)
  | variableReference (name : String) (ty : SkType) (isConst : Bool)
      (initialValue : Option Expression)
  | constructor (ty : SkType) (args : List Expression)
  | swizzle (base : Expression) (components : List Int)

namespace Expression

def kind : Expression → ExprKind
  | .boolLiteral _ => .boolLiteral
  | .intLiteral _ => .intLiteral
  | .floatLiteral _ => .floatLiteral
  | .prefixExpression _ _ => .prefixExpr
  | .variableReference _ _ _ _ => .variableReference
  | .constructor _ _ => .constructor
  | .swizzle _ _ => .swizzle

/-- `Expression::type()` for each node kind (`BoolLiteral` is `bool`,
`IntLiteral` is `int`, `FloatLiteral` is `float`, a prefix expression has its
operand's type, a swizzle has the compound type of its mask width over the
base's component type). -/
def type : Expression → SkType
  | .boolLiteral _ => .scalar .bool
  | .intLiteral _ => .scalar .int
  | .floatLiteral _ => .scalar .float
  | .prefixExpression _ operand => type operand
  | .variableReference _ ty _ _ => ty
  | .constructor ty _ => ty
  | .swizzle base components =>
      (type base).componentType.toCompound components.length 1

/-- `Expression::isCompileTimeConstant()`: literals are constant, a
constructor is constant when all of its arguments are, everything else is
not. -/
def isCompileTimeConstant : Expression → Bool
  | .boolLiteral _ => true
  | .intLiteral _ => true
  | .floatLiteral _ => true
  | .constructor _ args => go args
  | _ => false
where
  go : List Expression → Bool
    | [] => true
    | e :: es => isCompileTimeConstant e && go es

end Expression

/-- `IRGenerator::getConstantInt`: an integer literal yields its value; a
reference to a `const` variable with a constant initializer recurses into the
initializer; everything else is not a compile-time integer. -/
def getConstantInt : Expression → Option Int
  | .intLiteral v => some v
  | .variableReference _ _ isConst initialValue =>
      match isConst, initialValue with
      | true, some init => getConstantInt init
      | _, _ => none
  | _ => none

/-! ## Constant folding (`IRGenerator::constantFold`, `short_circuit_boolean`) -/

/-- `short_circuit_boolean(context, left, op, right)`: `left` is asserted to
be a boolean literal; folds `&&`/`||`/`^^` against the (possibly
non-constant) `right`, yielding `nullptr` (`none`) for any other operator. -/
def short_circuit_boolean (left : Expression) (op : TokenKind)
    (right : Expression) : Option Expression :=
  match left with
  | .boolLiteral leftVal =>
    if op = .LOGICALAND then
      -- (true && expr) -> (expr) and (false && expr) -> (false)
      some (if leftVal then right else .boolLiteral false)
    else if op = .LOGICALOR then
      -- (true || expr) -> (true) and (false || expr) -> (expr)
      some (if leftVal then .boolLiteral true else right)
    else if op = .LOGICALXOR then
      -- (true ^^ expr) -> !(expr) and (false ^^ expr) -> (expr)
      some (if leftVal then .prefixExpression .LOGICALNOT right else right)
    else
      none
  | _ => none  -- SkASSERT(left.kind == kBoolLiteral): unreachable from constantFold

/-- `IRGenerator::constantFold(left, op, right)`, restricted to the
boolean/integer arms.  The float-literal, float-vector and matrix arms of the
source do floating-point arithmetic and are not modelled; they are
represented by the explicit fall-through returning `nullptr` with no error,
which none of the verified properties exercise. -/
def constantFold (left : Expression) (op : TokenKind) (right : Expression) :
    Option Expression × List String :=
  -- Short-circuit when one side is a boolean literal and the other is not
  -- a compile-time constant.
  if left.kind = .boolLiteral ∧ ¬right.isCompileTimeConstant then
    (short_circuit_boolean left op right, [])
  else if right.kind = .boolLiteral ∧ ¬left.isCompileTimeConstant then
    (short_circuit_boolean right op left, [])
  -- Other than the short-circuit cases, both sides must be constant.
  else if ¬left.isCompileTimeConstant ∨ ¬right.isCompileTimeConstant then
    (none, [])
  else match left, right with
  | .boolLiteral leftVal, .boolLiteral rightVal =>
    (match op with
     | .LOGICALAND => some (.boolLiteral (leftVal && rightVal))
     | .LOGICALOR => some (.boolLiteral (leftVal || rightVal))
     | .LOGICALXOR => some (.boolLiteral (xor leftVal rightVal))
     | _ => none, [])
  | .intLiteral leftVal, .intLiteral rightVal =>
    match op with
    | .PLUS => (some (.intLiteral (uint32 (uint32 leftVal + uint32 rightVal))), [])
    | .MINUS => (some (.intLiteral (uint32 (uint32 leftVal - uint32 rightVal))), [])
    | .STAR => (some (.intLiteral (uint32 (uint32 leftVal * uint32 rightVal))), [])
    | .SLASH =>
      if leftVal = INT64_MIN ∧ rightVal = -1 then
        (none, ["arithmetic overflow"])
      else if rightVal = 0 then
        (none, ["division by zero"])
      else
        (some (.intLiteral (leftVal.tdiv rightVal)), [])
    | .PERCENT =>
      if leftVal = INT64_MIN ∧ rightVal = -1 then
        (none, ["arithmetic overflow"])
      else if rightVal = 0 then
        (none, ["division by zero"])
      else
        (some (.intLiteral (leftVal.tmod rightVal)), [])
    | .BITWISEAND => (some (.intLiteral (int64And leftVal rightVal)), [])
    | .BITWISEOR => (some (.intLiteral (int64Or leftVal rightVal)), [])
    | .BITWISEXOR => (some (.intLiteral (int64Xor leftVal rightVal)), [])
    | .EQEQ => (some (.boolLiteral (leftVal = rightVal)), [])
    | .NEQ => (some (.boolLiteral (leftVal ≠ rightVal)), [])
    | .GT => (some (.boolLiteral (leftVal > rightVal)), [])
    | .GTEQ => (some (.boolLiteral (leftVal ≥ rightVal)), [])
    | .LT => (some (.boolLiteral (leftVal < rightVal)), [])
    | .LTEQ => (some (.boolLiteral (leftVal ≤ rightVal)), [])
    | .SHL =>
      if 0 ≤ rightVal ∧ rightVal ≤ 31 then
        (some (.intLiteral (uint32 (uint32 leftVal * 2 ^ rightVal.toNat))), [])
      else
        (none, ["shift value out of range"])
    | .SHR =>
      if 0 ≤ rightVal ∧ rightVal ≤ 31 then
        (some (.intLiteral (uint32 leftVal / 2 ^ rightVal.toNat)), [])
      else
        (none, ["shift value out of range"])
    | _ => (none, [])
  | _, _ => (none, [])

/-- A non-compile-time-constant expression is not a boolean literal (boolean
literals are compile-time constants). -/
theorem kind_ne_boolLiteral_of_not_constant {e : Expression}
    (h : e.isCompileTimeConstant = false) : e.kind ≠ .boolLiteral := by
  cases e <;> simp_all [Expression.isCompileTimeConstant, Expression.kind]

/-- **C1.** For every pair of integer literals folded by `constantFold` with
`op` in `{+, -, *}`, the result is an integer literal equal to the unsigned
32-bit wraparound result of the operation (the operands reduced through
`uint32_t`, the operation performed, and the result reduced again), and no
error is reported; in particular folding `2147483647 + 1` yields the literal
`2147483648` without error. -/
theorem constantFold_int_add_sub_mul_wraps (a b : Int) :
    constantFold (.intLiteral a) .PLUS (.intLiteral b) =
      (some (.intLiteral (uint32 (uint32 a + uint32 b))), []) ∧
    constantFold (.intLiteral a) .MINUS (.intLiteral b) =
      (some (.intLiteral (uint32 (uint32 a - uint32 b))), []) ∧
    constantFold (.intLiteral a) .STAR (.intLiteral b) =
      (some (.intLiteral (uint32 (uint32 a * uint32 b))), []) ∧
    constantFold (.intLiteral 2147483647) .PLUS (.intLiteral 1) =
      (some (.intLiteral 2147483648), []) :=
  ⟨rfl, rfl, rfl, rfl⟩

/-- **C2.** For every integer literal `a`: folding `a / 0` and `a % 0`
reports "division by zero" and returns no IR node; folding
`INT64_MIN / -1` and `INT64_MIN % -1` reports "arithmetic overflow" and
returns no IR node — never a wrapped or undefined result. -/
theorem constantFold_int_div_mod_errors (a : Int) :
    constantFold (.intLiteral a) .SLASH (.intLiteral 0) =
      (none, ["division by zero"]) ∧
    constantFold (.intLiteral a) .PERCENT (.intLiteral 0) =
      (none, ["division by zero"]) ∧
    constantFold (.intLiteral INT64_MIN) .SLASH (.intLiteral (-1)) =
      (none, ["arithmetic overflow"]) ∧
    constantFold (.intLiteral INT64_MIN) .PERCENT (.intLiteral (-1)) =
      (none, ["arithmetic overflow"]) := by
  refine ⟨?_, ?_, rfl, rfl⟩ <;>
    simp [constantFold, Expression.kind, Expression.isCompileTimeConstant]

/-- **C3.** For every boolean literal `b` and non-compile-time-constant
expression `e`, `constantFold` short-circuits regardless of operand order:
`b && e` folds to `e` when `b` is true and to a false literal when `b` is
false; `b || e` folds to a true literal when `b` is true and to `e` when `b`
is false; `b ^^ e` folds to `!e` when `b` is true and to `e` when `b` is
false — with no error reported, and the mirrored operand order folding
identically. -/
theorem constantFold_short_circuits (b : Bool) (e : Expression)
    (h : e.isCompileTimeConstant = false) :
    constantFold (.boolLiteral b) .LOGICALAND e =
      (some (if b then e else .boolLiteral false), []) ∧
    constantFold (.boolLiteral b) .LOGICALOR e =
      (some (if b then .boolLiteral true else e), []) ∧
    constantFold (.boolLiteral b) .LOGICALXOR e =
      (some (if b then .prefixExpression .LOGICALNOT e else e), []) ∧
    constantFold e .LOGICALAND (.boolLiteral b) =
      (some (if b then e else .boolLiteral false), []) ∧
    constantFold e .LOGICALOR (.boolLiteral b) =
      (some (if b then .boolLiteral true else e), []) ∧
    constantFold e .LOGICALXOR (.boolLiteral b) =
      (some (if b then .prefixExpression .LOGICALNOT e else e), []) := by
  have hk := kind_ne_boolLiteral_of_not_constant h
  refine ⟨?_, ?_, ?_, ?_, ?_, ?_⟩ <;>
    simp [constantFold, Expression.kind, Expression.isCompileTimeConstant, h, hk,
      short_circuit_boolean]

/-- Witness for C3 at `b = true`, `e` a boolean variable reference. -/
theorem constantFold_short_circuits_witness :
    (Expression.variableReference "v" (.scalar .bool) false
        none).isCompileTimeConstant = false ∧
    constantFold (.boolLiteral true) .LOGICALAND
        (.variableReference "v" (.scalar .bool) false none) =
      (some (if true then .variableReference "v" (.scalar .bool) false none
             else .boolLiteral false), []) :=
  ⟨rfl, (constantFold_short_circuits true
      (.variableReference "v" (.scalar .bool) false none) rfl).1⟩

/-! ## Binary operand/result type determination (`determine_binary_type`) -/

/-- `is_matrix_multiply(left, right)`: a matrix times a matrix or vector, or
a vector times a matrix. -/
def is_matrix_multiply (left right : SkType) : Bool :=
  if left.typeKind = .matrix then
    right.typeKind = .matrix ∨ right.typeKind = .vector
  else
    left.typeKind = .vector ∧ right.typeKind = .matrix

/-- Termination measure: compound types sit one level above everything
else (`determine_binary_type` only ever recurses from a compound type to
its component type). -/
def SkType.rank : SkType → Nat
  | .vec _ _ => 1
  | .mat _ _ _ => 1
  | _ => 0

theorem rank_componentType_of_compound {t : SkType}
    (h : t.typeKind = .vector ∨ t.typeKind = .matrix) :
    t.componentType.rank = 0 := by
  cases t <;> simp_all [SkType.typeKind, SkType.componentType, SkType.rank]

theorem rank_eq_one_of_compound {t : SkType}
    (h : t.typeKind = .vector ∨ t.typeKind = .matrix) : t.rank = 1 := by
  cases t <;> simp_all [SkType.typeKind, SkType.rank]

theorem is_matrix_multiply_compound {left right : SkType}
    (h : is_matrix_multiply left right = true) :
    (left.typeKind = .vector ∨ left.typeKind = .matrix) ∧
    (right.typeKind = .vector ∨ right.typeKind = .matrix) := by
  unfold is_matrix_multiply at h
  split at h <;> simp_all <;> tauto

mutual

/-- `determine_binary_type(context, op, left, right, out...)`: the operand
and result types of a binary expression — `some (leftType, rightType,
resultType)` when the expression is legal, `none` otherwise (the source's
boolean return plus out-parameters). -/
def determine_binary_type (op : TokenKind) (left right : SkType) :
    Option (SkType × SkType × SkType) :=
  match op with
  | .EQ =>
      if canCoerceTo right left then some (left, left, left) else none
  | .EQEQ | .NEQ =>
      if canCoerceTo right left then some (left, left, .scalar .bool)
      else if canCoerceTo left right then some (right, right, .scalar .bool)
      else none
  | .LOGICALOR | .LOGICALAND | .LOGICALXOR
  | .LOGICALOREQ | .LOGICALANDEQ | .LOGICALXOREQ =>
      if canCoerceTo left (.scalar .bool) ∧ canCoerceTo right (.scalar .bool) then
        some (.scalar .bool, .scalar .bool, .scalar .bool)
      else none
  | .STAREQ | .STAR =>
      if h : is_matrix_multiply left right = true then
        -- true linear-algebra multiply: determine the component type, then
        -- rebuild the outer shapes
        match determine_binary_type .STAR left.componentType right.componentType with
        | some (_, _, res) =>
            let outLeft := res.toCompound left.columns left.rows
            let outRight := res.toCompound right.columns right.rows
            let leftColumns := left.columns
            let leftRows := left.rows
            -- matrix * vector treats the vector as a column vector
            let rightColumns := if right.typeKind = .vector then right.rows
                                else right.columns
            let rightRows := if right.typeKind = .vector then right.columns
                             else right.rows
            let outResult :=
              if rightColumns > 1 then res.toCompound rightColumns leftRows
              else res.toCompound leftRows rightColumns
            if IsAssignment op ∧
                (outResult.columns ≠ leftColumns ∨ outResult.rows ≠ leftRows) then
              none
            else if leftColumns = rightRows then some (outLeft, outRight, outResult)
            else none
        | none => none
      else
        determine_binary_type_general op left right false true
  | .LT | .GT | .LTEQ | .GTEQ =>
      determine_binary_type_general op left right true false
  | .PLUSEQ | .MINUSEQ | .SLASHEQ | .PERCENTEQ | .SHLEQ | .SHREQ
  | .PLUS | .MINUS | .SLASH | .PERCENT =>
      determine_binary_type_general op left right false true
  | .COMMA =>
      some (left, right, right)
  | _ =>
      determine_binary_type_general op left right false false
termination_by 2 * (left.rank + right.rank) + 1
decreasing_by
  all_goals simp_wf
  all_goals try omega
  all_goals
    obtain ⟨hl, hr⟩ := is_matrix_multiply_compound h
  all_goals
    rw [rank_componentType_of_compound hl, rank_componentType_of_compound hr,
      rank_eq_one_of_compound hl, rank_eq_one_of_compound hr]
  all_goals omega

/-- The tail of `determine_binary_type` after the operator switch: scalar
broadcast over one compound operand, and the cost-compared scalar/scalar (or
matching compound) case.  `isLogical` and `validMatrixOrVectorOp` are the
flags set by the switch. -/
def determine_binary_type_general (op : TokenKind) (left right : SkType)
    (isLogical validMatrixOrVectorOp : Bool) :
    Option (SkType × SkType × SkType) :=
  let isAssignment := IsAssignment op
  let leftIsVectorOrMatrix := left.typeKind = .vector ∨ left.typeKind = .matrix
  let rightIsVectorOrMatrix := right.typeKind = .vector ∨ right.typeKind = .matrix
  if h1 : leftIsVectorOrMatrix ∧ validMatrixOrVectorOp = true ∧
      right.typeKind = .scalar then
    -- broadcast the scalar over the left operand's shape
    match determine_binary_type op left.componentType right with
    | some (l, r, res) =>
        some (l.toCompound left.columns left.rows, r,
              if isLogical then res else res.toCompound left.columns left.rows)
    | none => none
  else if h2 : ¬isAssignment = true ∧ rightIsVectorOrMatrix ∧
      validMatrixOrVectorOp = true ∧ left.typeKind = .scalar then
    -- broadcast the scalar over the right operand's shape
    match determine_binary_type op left right.componentType with
    | some (l, r, res) =>
        some (l, r.toCompound right.columns right.rows,
              if isLogical then res else res.toCompound right.columns right.rows)
    | none => none
  else
    let rightToLeftCost := coercionCost right left
    let leftToRightCost := if isAssignment then INT_MAX else coercionCost left right
    if (left.typeKind = .scalar ∧ right.typeKind = .scalar) ∨
        (leftIsVectorOrMatrix ∧ validMatrixOrVectorOp = true) then
      if rightToLeftCost < leftToRightCost then
        -- Right-to-Left conversion is cheaper (and therefore possible)
        some (left, left, if isLogical then .scalar .bool else left)
      else if leftToRightCost ≠ INT_MAX then
        -- Left-to-Right conversion is possible (and at least as cheap)
        some (right, right, if isLogical then .scalar .bool else right)
      else none
    else none
termination_by 2 * (left.rank + right.rank)
decreasing_by
  all_goals simp_wf
  · rw [rank_componentType_of_compound h1.1, rank_eq_one_of_compound h1.1]
    omega
  · rw [rank_componentType_of_compound h2.2.1, rank_eq_one_of_compound h2.2.1]
    omega

end

theorem scalarWideningCost_le : ∀ k k' : ScalarKind,
    (scalarWideningCost k k').getD INT_MAX ≤ INT_MAX := by decide

theorem scalarWideningCost_asym : ∀ k k' : ScalarKind,
    (scalarWideningCost k k').getD INT_MAX ≠ INT_MAX →
    (scalarWideningCost k' k).getD INT_MAX ≠ INT_MAX → False := by decide

/-- Coercion costs never exceed the `INT_MAX` sentinel. -/
theorem coercionCost_le_INT_MAX (t u : SkType) : coercionCost t u ≤ INT_MAX := by
  unfold coercionCost
  split
  · simp [INT_MAX]
  · split <;> (try split) <;>
      first
        | apply scalarWideningCost_le
        | simp [INT_MAX]

/-- Under the spec's coercion model, widening is one-directional: two types
each of which implicitly coerces to the other are the same type.  (This is
what makes equal finite coercion costs degenerate: they only occur between
identical types.) -/
theorem eq_of_mutually_coercible {t u : SkType}
    (htu : coercionCost t u ≠ INT_MAX) (hut : coercionCost u t ≠ INT_MAX) :
    t = u := by
  by_contra h
  have hne : u ≠ t := fun hh => h hh.symm
  unfold coercionCost at htu hut
  rw [if_neg h] at htu
  rw [if_neg hne] at hut
  cases t <;> cases u <;> (try exact htu rfl)
  · exact scalarWideningCost_asym _ _ htu hut
  · rename_i k n k' n'
    have htu' : (if n = n' then (scalarWideningCost k k').getD INT_MAX
        else INT_MAX) ≠ INT_MAX := htu
    have hut' : (if n' = n then (scalarWideningCost k' k).getD INT_MAX
        else INT_MAX) ≠ INT_MAX := hut
    by_cases hn : n = n'
    · subst hn
      rw [if_pos rfl] at htu' hut'
      exact scalarWideningCost_asym _ _ htu' hut'
    · exact htu' (if_neg hn)
  · rename_i k c r k' c' r'
    have htu' : (if c = c' ∧ r = r' then (scalarWideningCost k k').getD INT_MAX
        else INT_MAX) ≠ INT_MAX := htu
    have hut' : (if c' = c ∧ r' = r then (scalarWideningCost k' k).getD INT_MAX
        else INT_MAX) ≠ INT_MAX := hut
    by_cases hc : c = c' ∧ r = r'
    · obtain ⟨hc1, hc2⟩ := hc
      subst hc1
      subst hc2
      rw [if_pos ⟨rfl, rfl⟩] at htu' hut'
      exact scalarWideningCost_asym _ _ htu' hut'
    · exact htu' (if_neg hc)

/-- `determine_binary_type_general` on two scalars with a non-assignment
operator is exactly the cost comparison of the two coercion directions. -/
theorem determine_binary_type_general_scalar (op : TokenKind) (l r : SkType)
    (hl : l.typeKind = .scalar) (hr : r.typeKind = .scalar)
    (hassign : IsAssignment op = false) (isLogical validOp : Bool) :
    determine_binary_type_general op l r isLogical validOp =
      if coercionCost r l < coercionCost l r then
        some (l, l, if isLogical then .scalar .bool else l)
      else if coercionCost l r ≠ INT_MAX then
        some (r, r, if isLogical then .scalar .bool else r)
      else none := by
  unfold determine_binary_type_general
  simp [hl, hr, hassign]

/-- `determine_binary_type_general` on two vector/matrix operands with a
non-assignment operator and the valid-op flag set reaches the same cost
comparison as the scalar/scalar case: neither scalar-broadcast branch
applies (neither operand is a scalar), and the left operand being a vector
or matrix satisfies the final guard. -/
theorem determine_binary_type_general_compound (op : TokenKind) (l r : SkType)
    (hl : l.typeKind = .vector ∨ l.typeKind = .matrix)
    (hr : r.typeKind = .vector ∨ r.typeKind = .matrix)
    (hassign : IsAssignment op = false) (isLogical : Bool) :
    determine_binary_type_general op l r isLogical true =
      if coercionCost r l < coercionCost l r then
        some (l, l, if isLogical then .scalar .bool else l)
      else if coercionCost l r ≠ INT_MAX then
        some (r, r, if isLogical then .scalar .bool else r)
      else none := by
  have hls : l.typeKind ≠ .scalar := by
    rcases hl with h | h <;> simp [h]
  have hrs : r.typeKind ≠ .scalar := by
    rcases hr with h | h <;> simp [h]
  unfold determine_binary_type_general
  simp [hassign, hls, hrs, hl]

/-- The cost-comparison branch shared by the scalar/scalar and the matching
compound cases: how its outcome relates to the two coercion costs (under
the spec's one-directional widening model, where a cost tie only occurs
between identical types). -/
theorem cost_branch_cases (l r : SkType)
    (res : Option (SkType × SkType × SkType))
    (hres : res =
      if coercionCost r l < coercionCost l r then some (l, l, l)
      else if coercionCost l r ≠ INT_MAX then some (r, r, r)
      else none) :
    (res = none ↔ coercionCost r l = INT_MAX ∧ coercionCost l r = INT_MAX) ∧
    (coercionCost r l ≤ coercionCost l r → coercionCost r l ≠ INT_MAX →
      res = some (l, l, l)) ∧
    (coercionCost l r < coercionCost r l → res = some (r, r, r)) := by
  subst hres
  refine ⟨?_, ?_, ?_⟩
  · constructor
    · intro hnone
      split at hnone
      · simp at hnone
      · split at hnone
        · simp at hnone
        · rename_i hlt hmax
          simp at hmax
          refine ⟨?_, hmax⟩
          have := coercionCost_le_INT_MAX r l
          omega
    · rintro ⟨hrl, hlr⟩
      rw [hrl, hlr]
      simp
  · intro hle hne
    rcases lt_or_eq_of_le hle with hlt | heq
    · rw [if_pos hlt]
    · -- equal costs: both directions legal, hence the types coincide
      have hlrne : coercionCost l r ≠ INT_MAX := heq ▸ hne
      have heqt : l = r := eq_of_mutually_coercible hlrne hne
      subst heqt
      rw [if_neg (lt_irrefl _), if_pos hne]
  · intro hlt
    have hrle := coercionCost_le_INT_MAX r l
    have hne : coercionCost l r ≠ INT_MAX := by omega
    rw [if_neg (by omega), if_pos hne]

/-- **C5.** For a non-assignment arithmetic operator on two operands that
are either both scalars or both vectors/matrices on the element-wise path
(i.e. not a linear-algebra multiply), `determine_binary_type` picks the
cheaper of the right-to-left and left-to-right coercions as the common
operand/result type; when the two costs are equal (and legal) the left
operand's type is chosen (under the spec's one-directional widening model,
equal finite costs force the two types to coincide, so the right-to-left
tie preference holds); the expression fails exactly when both coercion
directions are illegal. -/
theorem determine_binary_type_picks_cheaper_coercion
    (op : TokenKind) (l r : SkType)
    (hop : op ∈ ([.PLUS, .MINUS, .STAR, .SLASH, .PERCENT] : List TokenKind))
    (hshape : (l.typeKind = .scalar ∧ r.typeKind = .scalar) ∨
      ((l.typeKind = .vector ∨ l.typeKind = .matrix) ∧
       (r.typeKind = .vector ∨ r.typeKind = .matrix)))
    (hmm : op = .STAR → is_matrix_multiply l r = false) :
    (determine_binary_type op l r = none ↔
      coercionCost r l = INT_MAX ∧ coercionCost l r = INT_MAX) ∧
    (coercionCost r l ≤ coercionCost l r → coercionCost r l ≠ INT_MAX →
      determine_binary_type op l r = some (l, l, l)) ∧
    (coercionCost l r < coercionCost r l →
      determine_binary_type op l r = some (r, r, r)) := by
  have hassign : IsAssignment op = false := by
    fin_cases hop <;> rfl
  have hgen : determine_binary_type op l r =
      determine_binary_type_general op l r false true := by
    fin_cases hop
    · simp [determine_binary_type]
    · simp [determine_binary_type]
    · simp [determine_binary_type, hmm rfl]
    · simp [determine_binary_type]
    · simp [determine_binary_type]
  rw [hgen]
  rcases hshape with ⟨hl, hr⟩ | ⟨hl, hr⟩
  · rw [determine_binary_type_general_scalar op l r hl hr hassign false true]
    exact cost_branch_cases l r _ rfl
  · rw [determine_binary_type_general_compound op l r hl hr hassign false]
    exact cost_branch_cases l r _ rfl

/-- Witness for C5: `int + float` — coercing `int` to `float` costs 1, the
reverse is illegal, so the common type is `float`; and the element-wise
compound case `ivec3 + vec3`, where the same cost comparison picks
`vec3`. -/
theorem determine_binary_type_picks_cheaper_coercion_witness :
    determine_binary_type .PLUS (.scalar .int) (.scalar .float) =
      some (.scalar .float, .scalar .float, .scalar .float) ∧
    determine_binary_type .PLUS (.vec .int 3) (.vec .float 3) =
      some (.vec .float 3, .vec .float 3, .vec .float 3) := by
  constructor
  · exact (determine_binary_type_picks_cheaper_coercion .PLUS
      (.scalar .int) (.scalar .float) (by decide)
      (Or.inl ⟨rfl, rfl⟩) (by decide)).2.2 (by decide)
  · exact (determine_binary_type_picks_cheaper_coercion .PLUS
      (.vec .int 3) (.vec .float 3) (by decide)
      (Or.inr ⟨Or.inl rfl, Or.inl rfl⟩) (by decide)).2.2 (by decide)

/-! ## Implicit coercion (`IRGenerator::coerce`) -/

/-- The result of `coerce`'s scalar branch: the source builds `T(expr)` via
`convertIdentifier` (which resolves the scalar type name to a
`TypeReference`) and `call`, which dispatches to `convertConstructor` and —
`T` being numeric — `convertNumberConstructor`, with the single argument
`expr`.  Specialised here to that call shape: a single argument whose type
implicitly coerces to the (distinct) target, so the identical-type and
boolean-argument arms of `convertNumberConstructor` cannot fire (boolean
never implicitly coerces); an integer literal converting to a float type
becomes a `FloatLiteral` of the same value, any other numeric argument is
wrapped in a `Constructor` node. -/
def coerceScalarViaConstructor (ty : SkType) (e : Expression) : Option Expression :=
  if e.type = ty then some e
  else match ty, e with
    | .scalar .float, .intLiteral v => some (.floatLiteral v)
    | _, _ => if e.type.isNumber then some (.constructor ty [e]) else none

/-- `IRGenerator::coerce(expr, type)`: `nullptr` propagates; an expression
already of the requested type is returned unchanged; an expression of the
invalid/poison type fails (after `checkValid` reports it); an illegal
coercion reports `expected 'T', but found 'U'` and fails; a scalar target
goes through a synthesized constructor call; any other target wraps the
expression in a one-argument `Constructor`.  (The null-literal arm is not
modelled: no null literals occur in this embedding.) -/
def coerce (expr : Option Expression) (ty : SkType) :
    Option Expression × List String :=
  match expr with
  | none => (none, [])
  | some e =>
    if e.type = ty then
      (some e, [])
    else if e.type = .invalid then
      (none, ["invalid expression"])
    else if coercionCost e.type ty = INT_MAX then
      (none, ["expected '" ++ ty.displayName ++ "', but found '" ++
              e.type.displayName ++ "'"])
    else if ty.typeKind = .scalar then
      (coerceScalarViaConstructor ty e, [])
    else
      (some (.constructor ty [e]), [])

/-- **C4.** No-op coercion is the identity: for every expression `x` and
type `T` with `x.type() == T`, `coerce(x, T)` returns `x` itself, unchanged
and with no wrapper constructor and no error. -/
theorem coerce_same_type_identity (e : Expression) (ty : SkType)
    (h : e.type = ty) : coerce (some e) ty = (some e, []) := by
  show (if e.type = ty then (some e, ([] : List String)) else _) = _
  rw [if_pos h]

/-- Witness for C4: coercing the integer literal `3` to its own type `int`
returns it unchanged. -/
theorem coerce_same_type_identity_witness :
    (Expression.intLiteral 3).type = .scalar .int ∧
    coerce (some (.intLiteral 3)) (.scalar .int) = (some (.intLiteral 3), []) :=
  ⟨rfl, coerce_same_type_identity (.intLiteral 3) (.scalar .int) rfl⟩

/-! ## Swizzle validation (`convertSwizzle`, `checkSwizzleWrite`) -/

/-- `SKSL_SWIZZLE_0`: the component sentinel for the literal `0`
pseudo-component (a negative value; the generator only ever tests its
sign). -/
def SKSL_SWIZZLE_0 : Int := -2

/-- `SKSL_SWIZZLE_1`: the component sentinel for the literal `1`
pseudo-component. -/
def SKSL_SWIZZLE_1 : Int := -1

/-- One character of `convertSwizzle`'s mask switch.  The source's
fall-through structure (`'y'` falls into the `'z'` arm when the base has
fewer than 2 columns, and so on down to the error default) is equivalent to
the direct column check here, since `columns < 2` implies `columns < 3` and
`columns < 4`. -/
def swizzleComponent (baseColumns : Nat) (c : Char) : Option Int :=
  if c = '0' then some SKSL_SWIZZLE_0
  else if c = '1' then some SKSL_SWIZZLE_1
  else if c = 'x' ∨ c = 'r' ∨ c = 's' ∨ c = 'L' then some 0
  else if c = 'y' ∨ c = 'g' ∨ c = 't' ∨ c = 'T' then
    if baseColumns ≥ 2 then some 1 else none
  else if c = 'z' ∨ c = 'b' ∨ c = 'p' ∨ c = 'R' then
    if baseColumns ≥ 3 then some 2 else none
  else if c = 'w' ∨ c = 'a' ∨ c = 'q' ∨ c = 'B' then
    if baseColumns ≥ 4 then some 3 else none
  else none

/-- The component-collecting loop of `convertSwizzle`: the component for
each mask character (failing on the first invalid one with the source's
error message) together with the count of literal `0`/`1` fields. -/
def collectSwizzleComponents (baseColumns : Nat) :
    List Char → Except String (List Int × Nat)
  | [] => .ok ([], 0)
  | c :: rest =>
    match swizzleComponent baseColumns c with
    | none => .error ("invalid swizzle component '" ++ toString c ++ "'")
    | some comp =>
      match collectSwizzleComponents baseColumns rest with
      | .error e => .error e
      | .ok (comps, lits) =>
          .ok (comp :: comps, (if c = '0' ∨ c = '1' then 1 else 0) + lits)

/-- `IRGenerator::convertSwizzle(base, fields)`, as far as its accept/reject
decision: a non-vector, non-scalar base is rejected; the mask characters are
converted (rejecting invalid components); more than 4 components are
rejected; a mask made entirely of literal fields (including the empty mask)
is rejected.  On success the source then builds the value — a `Swizzle` node
over a vector base, a synthesized constructor (possibly hoisting the scalar
into a temporary) over a scalar base — which reports no further errors; the
result here is the accepted component list. -/
def convertSwizzle (baseType : SkType) (fields : List Char) :
    Except String (List Int) :=
  if baseType.typeKind ≠ .vector ∧ ¬baseType.isNumber then
    .error ("cannot swizzle value of type '" ++ baseType.displayName ++ "'")
  else
    match collectSwizzleComponents baseType.columns fields with
    | .error e => .error e
    | .ok (components, numLiteralFields) =>
      if components.length > 4 then
        .error ("too many components in swizzle mask '" ++ String.mk fields ++ "'")
      else if numLiteralFields = components.length then
        .error "swizzle must refer to base expression"
      else
        .ok components

/-- The bit-accumulating loop of `IRGenerator::checkSwizzleWrite`. -/
def checkSwizzleWriteGo (bits : Nat) : List Int → Except String Unit
  | [] => .ok ()
  | idx :: rest =>
    if idx < 0 then
      .error "cannot write to a swizzle mask containing a constant"
    else
      let bit := 1 <<< idx.toNat
      if bits &&& bit ≠ 0 then
        .error "cannot write to the same swizzle field more than once"
      else
        checkSwizzleWriteGo (bits ||| bit) rest

/-- `IRGenerator::checkSwizzleWrite(swizzle)`: validates a swizzle used as
an assignment target — no literal (negative-sentinel) components, no
component written twice. -/
def checkSwizzleWrite (components : List Int) : Except String Unit :=
  checkSwizzleWriteGo 0 components

/-- The bit accumulator of `checkSwizzleWrite` succeeds exactly on
non-negative, pairwise-distinct components none of which is already in
`bits`. -/
theorem checkSwizzleWriteGo_ok_iff (cs : List Int) : ∀ bits : Nat,
    checkSwizzleWriteGo bits cs = .ok () ↔
      ((∀ c ∈ cs, 0 ≤ c) ∧ cs.Pairwise (· ≠ ·) ∧
        ∀ c ∈ cs, bits.testBit c.toNat = false) := by
  induction cs with
  | nil =>
    intro bits
    simp [checkSwizzleWriteGo]
  | cons c rest ih =>
    intro bits
    unfold checkSwizzleWriteGo
    by_cases hc : c < 0
    · rw [if_pos hc]
      constructor
      · intro h
        exact absurd h (by simp)
      · rintro ⟨hnn, -, -⟩
        have := hnn c (List.mem_cons_self c rest)
        omega
    · rw [if_neg hc]
      have hcnn : (0 : Int) ≤ c := by omega
      by_cases hbit : bits &&& (1 <<< c.toNat) ≠ 0
      · rw [if_pos hbit]
        constructor
        · intro h
          exact absurd h (by simp)
        · rintro ⟨-, -, hbits⟩
          have h1 := hbits c (List.mem_cons_self c rest)
          rw [Nat.one_shiftLeft, Nat.and_two_pow, h1] at hbit
          simp at hbit
      · rw [if_neg hbit]
        push_neg at hbit
        have htb : bits.testBit c.toNat = false := by
          rw [Nat.one_shiftLeft, Nat.and_two_pow] at hbit
          cases h : bits.testBit c.toNat
          · rfl
          · rw [h] at hbit
            simp at hbit
        rw [ih]
        constructor
        · rintro ⟨hnn, hpw, hbits⟩
          refine ⟨?_, ?_, ?_⟩
          · intro x hx
            rcases List.mem_cons.mp hx with h | h
            · omega
            · exact hnn x h
          · rw [List.pairwise_cons]
            refine ⟨?_, hpw⟩
            intro x hx heq
            have hx' := hbits x hx
            rw [Nat.one_shiftLeft, Nat.testBit_lor, ← heq,
              Nat.testBit_two_pow_self] at hx'
            simp at hx'
          · intro x hx
            rcases List.mem_cons.mp hx with h | h
            · subst h
              exact htb
            · have := hbits x h
              rw [Nat.testBit_lor] at this
              exact (Bool.or_eq_false_iff.mp this).1
        · rintro ⟨hnn, hpw, hbits⟩
          rw [List.pairwise_cons] at hpw
          refine ⟨fun x hx => hnn x (List.mem_cons_of_mem _ hx), hpw.2, ?_⟩
          intro x hx
          rw [Nat.testBit_lor, Bool.or_eq_false_iff]
          refine ⟨hbits x (List.mem_cons_of_mem _ hx), ?_⟩
          rw [Nat.one_shiftLeft]
          apply Nat.testBit_two_pow_of_ne
          intro hteq
          have hxnn := hnn x (List.mem_cons_of_mem _ hx)
          have hcx : c = x := by omega
          exact hpw.1 x hx hcx

/-- The component loop yields one component per mask character. -/
theorem collectSwizzleComponents_length {baseColumns : Nat} :
    ∀ {fields : List Char} {comps : List Int} {lits : Nat},
    collectSwizzleComponents baseColumns fields = .ok (comps, lits) →
    comps.length = fields.length := by
  intro fields
  induction fields with
  | nil =>
    intro comps lits h
    simp [collectSwizzleComponents] at h
    simp [← h.1]
  | cons c rest ih =>
    intro comps lits h
    unfold collectSwizzleComponents at h
    cases hsc : swizzleComponent baseColumns c with
    | none => rw [hsc] at h; exact absurd h (by simp)
    | some comp =>
      rw [hsc] at h
      cases hrec : collectSwizzleComponents baseColumns rest with
      | error e => rw [hrec] at h; exact absurd h (by simp)
      | ok p =>
        obtain ⟨comps', lits'⟩ := p
        rw [hrec] at h
        simp at h
        obtain ⟨h1, -⟩ := h
        simp [← h1, ih hrec]

/-- On a mask made entirely of `0`/`1` pseudo-components, every collected
component is a literal. -/
theorem collectSwizzleComponents_all_literal {baseColumns : Nat} :
    ∀ {fields : List Char} {comps : List Int} {lits : Nat},
    (∀ c ∈ fields, c = '0' ∨ c = '1') →
    collectSwizzleComponents baseColumns fields = .ok (comps, lits) →
    lits = comps.length := by
  intro fields
  induction fields with
  | nil =>
    intro comps lits _ h
    simp [collectSwizzleComponents] at h
    simp [h.1, ← h.2]
  | cons c rest ih =>
    intro comps lits hall h
    unfold collectSwizzleComponents at h
    cases hsc : swizzleComponent baseColumns c with
    | none => rw [hsc] at h; exact absurd h (by simp)
    | some comp =>
      rw [hsc] at h
      cases hrec : collectSwizzleComponents baseColumns rest with
      | error e => rw [hrec] at h; exact absurd h (by simp)
      | ok p =>
        obtain ⟨comps', lits'⟩ := p
        rw [hrec] at h
        simp at h
        obtain ⟨h1, h2⟩ := h
        have hlit : c = '0' ∨ c = '1' := hall c (List.mem_cons_self c rest)
        have hrest := ih (fun x hx => hall x (List.mem_cons_of_mem _ hx)) hrec
        rw [← h1, ← h2, if_pos hlit]
        simp [hrest]
        omega

/-- **C6.** `convertSwizzle` rejects every mask of length 0 or greater
than 4 and every mask made entirely of literal pseudo-components; a mask
with a repeated real component such as `"xx"` is accepted as a read, but a
write-swizzle (`checkSwizzleWrite`) succeeds exactly when the mask has no
literal component and addresses pairwise-distinct components — so `"xx"` is
rejected as an assignment target. -/
theorem convertSwizzle_validation :
    (∀ (baseType : SkType) (fields : List Char),
        fields.length = 0 ∨ fields.length > 4 →
        (convertSwizzle baseType fields).isOk = false) ∧
    (∀ (baseType : SkType) (fields : List Char),
        (∀ c ∈ fields, c = '0' ∨ c = '1') →
        (convertSwizzle baseType fields).isOk = false) ∧
    convertSwizzle (.vec .float 4) ['x', 'x'] = .ok [0, 0] ∧
    (∀ components : List Int,
        checkSwizzleWrite components = .ok () ↔
          (∀ c ∈ components, 0 ≤ c) ∧ components.Pairwise (· ≠ ·)) ∧
    checkSwizzleWrite [0, 0] =
      .error "cannot write to the same swizzle field more than once" := by
  refine ⟨?_, ?_, rfl, ?_, rfl⟩
  · intro baseType fields hlen
    unfold convertSwizzle
    split
    · rfl
    · cases hcol : collectSwizzleComponents baseType.columns fields with
      | error e => rfl
      | ok p =>
        obtain ⟨comps, lits⟩ := p
        rcases hlen with h0 | h4
        · have hfe : fields = [] := List.length_eq_zero.mp h0
          subst hfe
          simp [collectSwizzleComponents] at hcol
          obtain ⟨h1, h2⟩ := hcol
          subst h1
          subst h2
          rfl
        · have hl := collectSwizzleComponents_length hcol
          simp only
          rw [if_pos (by omega)]
          rfl
  · intro baseType fields hall
    unfold convertSwizzle
    split
    · rfl
    · cases hcol : collectSwizzleComponents baseType.columns fields with
      | error e => rfl
      | ok p =>
        obtain ⟨comps, lits⟩ := p
        have hlit := collectSwizzleComponents_all_literal hall hcol
        simp only [hlit]
        split
        · rfl
        · rfl
  · intro components
    rw [checkSwizzleWrite, checkSwizzleWriteGo_ok_iff]
    simp [Nat.zero_testBit]

/-- Witness for C6 at concrete masks: the empty mask and the all-literal
mask `"00"` are rejected on a `float4` base, and `checkSwizzleWrite`
accepts the distinct mask `[0, 1]`. -/
theorem convertSwizzle_validation_witness :
    (([] : List Char).length = 0 ∨ ([] : List Char).length > 4) ∧
    (convertSwizzle (.vec .float 4) []).isOk = false ∧
    (∀ c ∈ ['0', '0'], c = '0' ∨ c = '1') ∧
    (convertSwizzle (.vec .float 4) ['0', '0']).isOk = false ∧
    (checkSwizzleWrite [0, 1] = .ok () ↔
      (∀ c ∈ ([0, 1] : List Int), 0 ≤ c) ∧
        ([0, 1] : List Int).Pairwise (· ≠ ·)) :=
  ⟨Or.inl rfl,
   convertSwizzle_validation.1 (.vec .float 4) [] (Or.inl rfl),
   by decide,
   convertSwizzle_validation.2.1 (.vec .float 4) ['0', '0'] (by decide),
   convertSwizzle_validation.2.2.2.1 [0, 1]⟩

/-! ## Statement conversion and the loop/switch nesting state machine

`IRGenerator` keeps two counters, `fLoopLevel` and `fSwitchLevel`,
incremented on entry and decremented on exit of loop/switch conversion by
the RAII guards `AutoLoopLevel` and `AutoSwitchLevel`, whose destructors run
on every return path.  The generator state threaded below carries those
counters, the current function's return type, the reported errors and the
pending `fExtraStatements`.  Symbol tables, inliner enablement and
program-kind specifics do not interact with any verified property and are
not part of this state. -/

/-- The statement IR nodes. -/
inductive Statement where
  | breakStatement
  | continueStatement
  | discardStatement
  | nop
  | expressionStatement (e : Expression)
  | returnStatement (value : Option Expression)
  | block (isScope : Bool) (statements : List Statement)
  | ifStatement (isStatic : Bool) (test : Expression) (ifTrue : Statement)
      (ifFalse : Option Statement)
  | forStatement (initializer : Option Statement) (test : Option Expression)
      (next : Option Expression) (body : Statement)
  | whileStatement (test : Expression) (body : Statement)
  | doStatement (body : Statement) (test : Expression)
  | switchStatement (isStatic : Bool) (value : Expression)
      (cases : List (Option Expression × List Statement))

/-- The mutable generator state relevant to statement conversion. -/
structure GenState where
  loopLevel : Nat := 0
  switchLevel : Nat := 0
  currentFunctionReturnType : SkType := .void
  errors : List String := []
  extraStatements : List Statement := []

/-- `fErrors.error(offset, msg)`. -/
def GenState.emitError (s : GenState) (msg : String) : GenState :=
  {s with errors := s.errors ++ [msg]}

/-- Append a batch of reported messages (from a pure sub-conversion). -/
def GenState.emitErrors (s : GenState) (msgs : List String) : GenState :=
  {s with errors := s.errors ++ msgs}

/-- `AutoLoopLevel`'s constructor: `fLoopLevel++`. -/
def GenState.enterLoop (s : GenState) : GenState :=
  {s with loopLevel := s.loopLevel + 1}

/-- `AutoLoopLevel`'s destructor: `fLoopLevel--` (runs on every return path
out of the guarded scope). -/
def GenState.exitLoop (s : GenState) : GenState :=
  {s with loopLevel := s.loopLevel - 1}

/-- `AutoSwitchLevel`'s constructor: `fSwitchLevel++`. -/
def GenState.enterSwitch (s : GenState) : GenState :=
  {s with switchLevel := s.switchLevel + 1}

/-- `AutoSwitchLevel`'s destructor: `fSwitchLevel--`. -/
def GenState.exitSwitch (s : GenState) : GenState :=
  {s with switchLevel := s.switchLevel - 1}

/-- `IRGenerator::convertBreak`: legal iff inside a loop or a switch. -/
def convertBreak (s : GenState) : Option Statement × GenState :=
  if s.loopLevel > 0 ∨ s.switchLevel > 0 then
    (some .breakStatement, s)
  else
    (none, s.emitError "break statement must be inside a loop or switch")

/-- `IRGenerator::convertContinue`: legal iff inside a loop. -/
def convertContinue (s : GenState) : Option Statement × GenState :=
  if s.loopLevel > 0 then
    (some .continueStatement, s)
  else
    (none, s.emitError "continue statement must be inside a loop")

/-- **C7.** Converting `break` yields a break IR node iff the loop nesting
depth or the switch nesting depth is nonzero, otherwise it reports
"break statement must be inside a loop or switch" and yields no node;
converting `continue` yields a continue node iff the loop nesting depth is
nonzero, otherwise it reports "continue statement must be inside a loop"
and yields no node. -/
theorem convertBreak_convertContinue_legality (s : GenState) :
    (s.loopLevel ≠ 0 ∨ s.switchLevel ≠ 0 →
      convertBreak s = (some .breakStatement, s)) ∧
    (s.loopLevel = 0 ∧ s.switchLevel = 0 →
      convertBreak s =
        (none, s.emitError "break statement must be inside a loop or switch")) ∧
    (s.loopLevel ≠ 0 → convertContinue s = (some .continueStatement, s)) ∧
    (s.loopLevel = 0 →
      convertContinue s =
        (none, s.emitError "continue statement must be inside a loop")) := by
  refine ⟨?_, ?_, ?_, ?_⟩ <;> intro h <;> simp [convertBreak, convertContinue] <;> omega

/-- Witness for C7 at a state outside any loop or switch: both statements
are rejected with their respective messages. -/
theorem convertBreak_convertContinue_legality_witness :
    (({} : GenState).loopLevel = 0 ∧ ({} : GenState).switchLevel = 0) ∧
    convertBreak {} =
      (none, GenState.emitError {} "break statement must be inside a loop or switch") ∧
    convertContinue {} =
      (none, GenState.emitError {} "continue statement must be inside a loop") :=
  ⟨⟨rfl, rfl⟩,
   (convertBreak_convertContinue_legality {}).2.1 ⟨rfl, rfl⟩,
   (convertBreak_convertContinue_legality {}).2.2.2 rfl⟩

/-- The AST expression forms needed by statement conversion: literals and
identifiers.  An identifier carries the symbol-table facts `convertIdentifier`
consults for a variable: its type, constness and optional constant
initializer; `known = false` stands for a name absent from every enclosing
scope. -/
inductive ASTExpr where
  | boolLit (value : Bool)
  | intLit (value : Int)
  | ident (name : String) (ty : SkType) (isConst : Bool)
      (initialValue : Option Expression) (known : Bool)

mutual
/-- The AST statement forms dispatched by `convertSingleStatement`.
(Declaration statements convert through `convertVarDeclarations`, which
never touches the nesting counters and is modelled separately for the
array-size property.) -/
inductive ASTStmt where
  | breakStmt
  | continueStmt
  | discardStmt
  | exprStmt (e : ASTExpr)
  | returnStmt (value : Option ASTExpr)
  | blockStmt (statements : List ASTStmt)
  | ifStmt (isStatic : Bool) (test : ASTExpr) (ifTrue : ASTStmt)
      (ifFalse : Option ASTStmt)
  | forStmt (initializer : Option ASTStmt) (test : Option ASTExpr)
      (next : Option ASTExpr) (body : ASTStmt)
  | whileStmt (test : ASTExpr) (body : ASTStmt)
  | doStmt (body : ASTStmt) (test : ASTExpr)
  | switchStmt (isStatic : Bool) (value : ASTExpr) (cases : List ASTCase)

/-- One `kSwitchCase` AST node: an optional case value (`none` for
`default:`) and the case's statements. -/
inductive ASTCase where
  | mk (value : Option ASTExpr) (statements : List ASTStmt)
end

/-- Conversion of the modelled expression forms (`convertBoolLiteral`,
`convertIntLiteral`, `convertIdentifier` for a variable).  No expression
conversion path touches the loop/switch nesting counters (no `Auto*Level`
guard exists on any of them), so expression conversion is a pure function
of the AST node, returning the converted node or `none` with the reported
errors. -/
def convertExpression : ASTExpr → Option Expression × List String
  | .boolLit b => (some (.boolLiteral b), [])
  | .intLit v => (some (.intLiteral v), [])
  | .ident name ty isConst initialValue known =>
      if known then
        (some (.variableReference name ty isConst initialValue), [])
      else
        (none, ["unknown identifier '" ++ name ++ "'"])

/-- The ubiquitous `this->coerce(this->convertExpression(node), type)`
composition. -/
def convertAndCoerce (e : ASTExpr) (ty : SkType) :
    Option Expression × List String :=
  let (c, errs1) := convertExpression e
  let (r, errs2) := coerce c ty
  (r, errs1 ++ errs2)

/-- The scope-detection loop of `ensure_scoped_blocks`: walks a chain of
single-statement unscoped blocks; true when a scope must be synthesized for
the outermost block (an unscoped block with other than exactly one
statement is found before an explicit scope or a non-block). -/
def blockChainNeedsScope : Statement → Bool
  | .block isScope statements =>
      if isScope then false
      else match statements with
        | [s] =>
          match s with
          | .block a b => blockChainNeedsScope (.block a b)
          | _ => false
        | _ => true
  | _ => false

/-- `ensure_scoped_blocks(stmt)`: marks the outermost block as a scope when
its chain of nested single-statement blocks requires one; non-blocks are
left untouched. -/
def ensure_scoped_blocks (stmt : Statement) : Statement :=
  match stmt with
  | .block isScope statements =>
      if blockChainNeedsScope (.block isScope statements) then
        .block true statements
      else
        .block isScope statements
  | s => s

/-- The static-condition folding at the end of `convertIf`: a literal
condition folds to the taken branch, or to a `Nop` for a false condition
with no else. -/
def foldIfStatic (isStatic : Bool) (test : Expression) (ifTrue : Statement)
    (ifFalse : Option Statement) : Statement :=
  match test with
  | .boolLiteral v =>
      if v then ifTrue
      else match ifFalse with
        | some f => f
        | none => .nop
  | _ => .ifStatement isStatic test ifTrue ifFalse

/-- The `(int)` truncation applied when a case value is stored in the
`std::unordered_set<int>` of seen case values. -/
def int32Wrap (x : Int) : Int := (x + 2147483648) % 4294967296 - 2147483648

theorem sizeOf_pos_astExpr (e : ASTExpr) : 0 < sizeOf e := by
  cases e <;> simp_arith

theorem sizeOf_pos_optASTExpr (o : Option ASTExpr) : 0 < sizeOf o := by
  cases o <;> simp_arith

theorem sizeOf_pos_optASTStmt (o : Option ASTStmt) : 0 < sizeOf o := by
  cases o <;> simp_arith

theorem sizeOf_pos_astStmt (stmt : ASTStmt) : 0 < sizeOf stmt := by
  cases stmt <;> simp_arith

mutual

/-- `IRGenerator::convertStatement`: saves and clears `fExtraStatements`
around `convertSingleStatement`, wrapping any produced extra statements
together with the result into an unscoped block. -/
def convertStatement (s : GenState) (stmt : ASTStmt) :
    Option Statement × GenState :=
  let oldExtra := s.extraStatements
  match convertSingleStatement {s with extraStatements := []} stmt with
  | (none, s1) => (none, {s1 with extraStatements := oldExtra})
  | (some r, s1) =>
    if s1.extraStatements.isEmpty then
      (some r, {s1 with extraStatements := oldExtra})
    else
      (some (.block false (s1.extraStatements ++ [r])),
       {s1 with extraStatements := oldExtra})
termination_by 4 * sizeOf stmt + 3

/-- `IRGenerator::convertSingleStatement`: kind dispatch.  (The
geometry-stage `EmitVertex` block wrapping on expression statements depends
on program kind, touches no nesting state, and is outside this model.) -/
def convertSingleStatement (s : GenState) (stmt : ASTStmt) :
    Option Statement × GenState :=
  match stmt with
  | .blockStmt statements => convertBlock s statements
  | .ifStmt isStatic test ifTrue ifFalse =>
      convertIf s isStatic test ifTrue ifFalse
  | .forStmt initializer test next body =>
      convertFor s initializer test next body
  | .whileStmt test body => convertWhile s test body
  | .doStmt body test => convertDo s body test
  | .switchStmt isStatic value cases => convertSwitch s isStatic value cases
  | .returnStmt value => convertReturn s value
  | .breakStmt => convertBreak s
  | .continueStmt => convertContinue s
  | .discardStmt => (some .discardStatement, s)
  | .exprStmt e => convertExpressionStatement s e
termination_by 4 * sizeOf stmt + 2
decreasing_by
  all_goals simp_wf
  all_goals first
    | omega
    | (have h1 := sizeOf_pos_optASTExpr test
       have h2 := sizeOf_pos_optASTExpr next
       omega)

/-- `IRGenerator::convertBlock`: convert each child in order inside a fresh
symbol-table scope (scopes are not modelled), failing on the first null
child. -/
def convertBlock (s : GenState) (statements : List ASTStmt) :
    Option Statement × GenState :=
  match convertStatementList s statements with
  | (none, s') => (none, s')
  | (some stmts, s') => (some (.block true stmts), s')
termination_by 4 * sizeOf statements + 4

/-- The child-conversion loop shared by `convertBlock` and the switch-case
bodies: all converted children, or `none` at the first failing child. -/
def convertStatementList (s : GenState) :
    (statements : List ASTStmt) → Option (List Statement) × GenState
  | [] => (some [], s)
  | stmt :: rest =>
    match convertStatement s stmt with
    | (none, s') => (none, s')
    | (some st, s') =>
      match convertStatementList s' rest with
      | (none, s'') => (none, s'')
      | (some sts, s'') => (some (st :: sts), s'')
termination_by statements => 4 * sizeOf statements + 3

/-- `IRGenerator::convertExpressionStatement`. -/
def convertExpressionStatement (s : GenState) (e : ASTExpr) :
    Option Statement × GenState :=
  match convertExpression e with
  | (none, errs) => (none, s.emitErrors errs)
  | (some ex, errs) => (some (.expressionStatement ex), s.emitErrors errs)
termination_by 0

/-- `IRGenerator::convertReturn`: a valued return is rejected in a void
function and otherwise coerced to the return type; a bare return in a
non-void function reports an error but still produces the return node. -/
def convertReturn (s : GenState) (value : Option ASTExpr) :
    Option Statement × GenState :=
  match value with
  | some v =>
    match convertExpression v with
    | (none, errs) => (none, s.emitErrors errs)
    | (some result, errs) =>
      let s1 := s.emitErrors errs
      if s.currentFunctionReturnType = .void then
        (none, s1.emitError "may not return a value from a void function")
      else
        match coerce (some result) s.currentFunctionReturnType with
        | (none, errs2) => (none, s1.emitErrors errs2)
        | (some result', errs2) =>
            (some (.returnStatement (some result')), s1.emitErrors errs2)
  | none =>
    if s.currentFunctionReturnType ≠ .void then
      (some (.returnStatement none),
       s.emitError ("expected function to return '" ++
         s.currentFunctionReturnType.displayName ++ "'"))
    else
      (some (.returnStatement none), s)
termination_by 0

/-- `IRGenerator::convertIf`: coerce the condition to bool, convert the
branches (scoping blocks as needed), and fold a literal condition down to
the taken branch. -/
def convertIf (s : GenState) (isStatic : Bool) (test : ASTExpr)
    (ifTrue : ASTStmt) (ifFalse : Option ASTStmt) :
    Option Statement × GenState :=
  match convertAndCoerce test (.scalar .bool) with
  | (none, errs) => (none, s.emitErrors errs)
  | (some t, errs) =>
      convertIfBranches (s.emitErrors errs) isStatic t ifTrue ifFalse
termination_by 4 * (sizeOf ifTrue + sizeOf ifFalse) + 1

/-- `convertIf` after the condition: the true branch (scoped as needed),
then the else branch. -/
def convertIfBranches (s : GenState) (isStatic : Bool) (t : Expression)
    (ifTrue : ASTStmt) (ifFalse : Option ASTStmt) :
    Option Statement × GenState :=
  match convertStatement s ifTrue with
  | (none, s2) => (none, s2)
  | (some tr, s2) =>
      convertIfElse s2 isStatic t (ensure_scoped_blocks tr) ifFalse
termination_by 4 * (sizeOf ifTrue + sizeOf ifFalse)
decreasing_by
  all_goals simp_wf
  all_goals
    have h1 := sizeOf_pos_optASTStmt ifFalse
  all_goals
    have h2 := sizeOf_pos_astStmt ifTrue
  all_goals omega

/-- `convertIf`'s final step: the optional else branch (scoped as needed)
and the static fold. -/
def convertIfElse (s : GenState) (isStatic : Bool) (t : Expression)
    (trScoped : Statement) (ifFalse : Option ASTStmt) :
    Option Statement × GenState :=
  match ifFalse with
  | some fstmt =>
    match convertStatement s fstmt with
    | (none, s3) => (none, s3)
    | (some fl, s3) =>
        (some (foldIfStatic isStatic t trScoped
          (some (ensure_scoped_blocks fl))), s3)
  | none => (some (foldIfStatic isStatic t trScoped none), s)
termination_by 4 * sizeOf ifFalse

/-- `IRGenerator::convertFor`, wrapped in its `AutoLoopLevel` guard: the
counter is incremented on entry and decremented on every way out. -/
def convertFor (s : GenState) (initializer : Option ASTStmt)
    (test next : Option ASTExpr) (body : ASTStmt) :
    Option Statement × GenState :=
  match convertForInner s.enterLoop initializer test next body with
  | (r, s') => (r, s'.exitLoop)
termination_by 4 * (sizeOf initializer + sizeOf body) + 8

/-- The body of `convertFor` inside the `AutoLoopLevel` scope (and an
unmodelled `AutoSymbolTable`): initializer, test coerced to bool, next
expression, then the loop body (scoped as needed). -/
def convertForInner (s : GenState) (initializer : Option ASTStmt)
    (test next : Option ASTExpr) (body : ASTStmt) :
    Option Statement × GenState :=
  match initializer with
  | some i =>
    match convertStatement s i with
    | (none, s1) => (none, s1)
    | (some ist, s1) => convertForTail s1 (some ist) test next body
  | none => convertForTail s none test next body
termination_by 4 * (sizeOf initializer + sizeOf body) + 7

/-- `convertFor` after the initializer: the optional test, coerced to bool
(`if (*iter) { ... if (!test) return nullptr; }`). -/
def convertForTail (s : GenState) (initStmt : Option Statement)
    (test next : Option ASTExpr) (body : ASTStmt) :
    Option Statement × GenState :=
  match test with
  | some t =>
    match convertAndCoerce t (.scalar .bool) with
    | (none, errsT) => (none, s.emitErrors errsT)
    | (some tv, errsT) =>
        convertForNext (s.emitErrors errsT) initStmt (some tv) next body
  | none => convertForNext s initStmt none next body
termination_by 4 * sizeOf body + 6

/-- `convertFor` after the test: the optional next-expression. -/
def convertForNext (s : GenState) (initStmt : Option Statement)
    (testExpr : Option Expression) (next : Option ASTExpr) (body : ASTStmt) :
    Option Statement × GenState :=
  match next with
  | some n =>
    match convertExpression n with
    | (none, errsN) => (none, s.emitErrors errsN)
    | (some nv, errsN) =>
        convertForBody (s.emitErrors errsN) initStmt testExpr (some nv) body
  | none => convertForBody s initStmt testExpr none body
termination_by 4 * sizeOf body + 5

/-- `convertFor`'s final step: the loop body (scoped as needed) and the
`ForStatement` node. -/
def convertForBody (s : GenState) (initStmt : Option Statement)
    (testExpr nextExpr : Option Expression) (body : ASTStmt) :
    Option Statement × GenState :=
  match convertStatement s body with
  | (none, s3) => (none, s3)
  | (some st, s3) =>
      (some (.forStatement initStmt testExpr nextExpr (ensure_scoped_blocks st)), s3)
termination_by 4 * sizeOf body + 4

/-- `IRGenerator::convertWhile` inside its `AutoLoopLevel` guard. -/
def convertWhile (s : GenState) (test : ASTExpr) (body : ASTStmt) :
    Option Statement × GenState :=
  match convertWhileInner s.enterLoop test body with
  | (r, s') => (r, s'.exitLoop)
termination_by 4 * sizeOf body + 5

/-- The body of `convertWhile`: condition coerced to bool, then the loop
body (scoped as needed). -/
def convertWhileInner (s : GenState) (test : ASTExpr) (body : ASTStmt) :
    Option Statement × GenState :=
  match convertAndCoerce test (.scalar .bool) with
  | (none, errs) => (none, s.emitErrors errs)
  | (some t, errs) =>
    let s1 := s.emitErrors errs
    match convertStatement s1 body with
    | (none, s2) => (none, s2)
    | (some st, s2) =>
        (some (.whileStatement t (ensure_scoped_blocks st)), s2)
termination_by 4 * sizeOf body + 4

/-- `IRGenerator::convertDo` inside its `AutoLoopLevel` guard. -/
def convertDo (s : GenState) (body : ASTStmt) (test : ASTExpr) :
    Option Statement × GenState :=
  match convertDoInner s.enterLoop body test with
  | (r, s') => (r, s'.exitLoop)
termination_by 4 * sizeOf body + 5

/-- The body of `convertDo`: the loop body first (scoped as needed), then
the condition coerced to bool. -/
def convertDoInner (s : GenState) (body : ASTStmt) (test : ASTExpr) :
    Option Statement × GenState :=
  match convertStatement s body with
  | (none, s1) => (none, s1)
  | (some st, s1) =>
    match convertAndCoerce test (.scalar .bool) with
    | (none, errs) => (none, s1.emitErrors errs)
    | (some t, errs) =>
        (some (.doStatement (ensure_scoped_blocks st) t), s1.emitErrors errs)
termination_by 4 * sizeOf body + 4

/-- `IRGenerator::convertSwitch` inside its `AutoSwitchLevel` guard. -/
def convertSwitch (s : GenState) (isStatic : Bool) (value : ASTExpr)
    (cases : List ASTCase) : Option Statement × GenState :=
  match convertSwitchInner s.enterSwitch isStatic value cases with
  | (r, s') => (r, s'.exitSwitch)
termination_by 4 * sizeOf cases + 2

/-- The body of `convertSwitch`: the switch value (coerced to `int` unless
already `uint`; enum-typed values are outside this model), then the case
list with duplicate detection over the seen-values set. -/
def convertSwitchInner (s : GenState) (isStatic : Bool) (value : ASTExpr)
    (cases : List ASTCase) : Option Statement × GenState :=
  match convertExpression value with
  | (none, errs) => (none, s.emitErrors errs)
  | (some v, errs) =>
    match (if v.type ≠ .scalar .uint then coerce (some v) (.scalar .int)
           else (some v, [])) with
    | (none, errs2) => (none, (s.emitErrors errs).emitErrors errs2)
    | (some v', errs2) =>
      match convertSwitchCases ((s.emitErrors errs).emitErrors errs2)
          v'.type [] cases with
      | (none, s3) => (none, s3)
      | (some cs, s3) => (some (.switchStatement isStatic v' cs), s3)
termination_by 4 * sizeOf cases + 1

/-- The duplicate-case detection of `convertSwitch`: a value already in the
seen set reports "duplicate case value", but conversion continues either
way. -/
def duplicateCaseCheck (s : GenState) (caseValues : List Int) (w : Int) :
    GenState :=
  if caseValues.contains w then s.emitError "duplicate case value" else s

/-- The case loop of `convertSwitch`: each case value is converted, coerced
to the switch value's type and evaluated as a compile-time integer
(rejecting non-constants); a duplicate value reports an error but
conversion continues; the case bodies convert through the shared child
loop. -/
def convertSwitchCases (s : GenState) (valueType : SkType)
    (caseValues : List Int) :
    (cases : List ASTCase) → Option (List (Option Expression × List Statement)) × GenState
  | [] => (some [], s)
  | .mk caseValue statements :: rest =>
    match caseValue with
    | some cv =>
      match convertAndCoerce cv valueType with
      | (none, errs) => (none, s.emitErrors errs)
      | (some cve, errs) =>
        match getConstantInt cve with
        | none =>
            (none, (s.emitErrors errs).emitError
              "case value must be a constant integer")
        | some v =>
          match convertStatementList
              (duplicateCaseCheck (s.emitErrors errs) caseValues (int32Wrap v))
              statements with
          | (none, s3) => (none, s3)
          | (some sts, s3) =>
            match convertSwitchCases s3 valueType
                (caseValues ++ [int32Wrap v]) rest with
            | (none, s4) => (none, s4)
            | (some cs, s4) => (some ((some cve, sts) :: cs), s4)
    | none =>
      match convertStatementList s statements with
      | (none, s3) => (none, s3)
      | (some sts, s3) =>
        match convertSwitchCases s3 valueType caseValues rest with
        | (none, s4) => (none, s4)
        | (some cs, s4) => (some ((none, sts) :: cs), s4)
termination_by cases => 4 * sizeOf cases

end

/-! ### The nesting counters are restored by every statement conversion -/

@[simp] theorem GenState.emitError_loopLevel (s : GenState) (m : String) :
    (s.emitError m).loopLevel = s.loopLevel := rfl

@[simp] theorem GenState.emitError_switchLevel (s : GenState) (m : String) :
    (s.emitError m).switchLevel = s.switchLevel := rfl

@[simp] theorem GenState.emitErrors_loopLevel (s : GenState) (m : List String) :
    (s.emitErrors m).loopLevel = s.loopLevel := rfl

@[simp] theorem GenState.emitErrors_switchLevel (s : GenState) (m : List String) :
    (s.emitErrors m).switchLevel = s.switchLevel := rfl

@[simp] theorem GenState.enterLoop_loopLevel (s : GenState) :
    s.enterLoop.loopLevel = s.loopLevel + 1 := rfl

@[simp] theorem GenState.enterLoop_switchLevel (s : GenState) :
    s.enterLoop.switchLevel = s.switchLevel := rfl

@[simp] theorem GenState.exitLoop_loopLevel (s : GenState) :
    s.exitLoop.loopLevel = s.loopLevel - 1 := rfl

@[simp] theorem GenState.exitLoop_switchLevel (s : GenState) :
    s.exitLoop.switchLevel = s.switchLevel := rfl

@[simp] theorem GenState.enterSwitch_loopLevel (s : GenState) :
    s.enterSwitch.loopLevel = s.loopLevel := rfl

@[simp] theorem GenState.enterSwitch_switchLevel (s : GenState) :
    s.enterSwitch.switchLevel = s.switchLevel + 1 := rfl

@[simp] theorem GenState.exitSwitch_loopLevel (s : GenState) :
    s.exitSwitch.loopLevel = s.loopLevel := rfl

@[simp] theorem GenState.exitSwitch_switchLevel (s : GenState) :
    s.exitSwitch.switchLevel = s.switchLevel - 1 := rfl

/-- The conversion result `r` leaves the two nesting counters of the input
state unchanged. -/
def NestingPreserved {α : Type} (s : GenState) (r : Option α × GenState) : Prop :=
  r.2.loopLevel = s.loopLevel ∧ r.2.switchLevel = s.switchLevel

theorem convertBreak_nesting (s : GenState) :
    NestingPreserved s (convertBreak s) := by
  unfold convertBreak NestingPreserved
  split <;> simp

theorem convertContinue_nesting (s : GenState) :
    NestingPreserved s (convertContinue s) := by
  unfold convertContinue NestingPreserved
  split <;> simp

theorem convertExpressionStatement_nesting (s : GenState) (e : ASTExpr) :
    NestingPreserved s (convertExpressionStatement s e) := by
  unfold convertExpressionStatement NestingPreserved
  split <;> simp

theorem convertReturn_nesting (s : GenState) (value : Option ASTExpr) :
    NestingPreserved s (convertReturn s value) := by
  unfold convertReturn NestingPreserved
  rcases value with - | v <;> (repeat' split) <;> simp

@[simp] theorem duplicateCaseCheck_loopLevel (s : GenState) (cv : List Int)
    (w : Int) : (duplicateCaseCheck s cv w).loopLevel = s.loopLevel := by
  unfold duplicateCaseCheck
  split <;> simp

@[simp] theorem duplicateCaseCheck_switchLevel (s : GenState) (cv : List Int)
    (w : Int) : (duplicateCaseCheck s cv w).switchLevel = s.switchLevel := by
  unfold duplicateCaseCheck
  split <;> simp

set_option maxHeartbeats 1600000

mutual

/-- **C10 (core induction).** `convertStatement` restores the loop and
switch nesting counters: after it returns — with a statement or with `none`
after an error — both counters equal their values from before the call. -/
theorem convertStatement_nesting (s : GenState) (stmt : ASTStmt) :
    NestingPreserved s (convertStatement s stmt) := by
  have ih := convertSingleStatement_nesting {s with extraStatements := []} stmt
  unfold convertStatement
  unfold NestingPreserved at ih ⊢
  rcases h : convertSingleStatement {s with extraStatements := []} stmt with ⟨r, s1⟩
  rw [h] at ih
  try rw [h]
  obtain ⟨ih1, ih2⟩ := ih
  clear h
  rcases r with - | r
  · exact ⟨ih1, ih2⟩
  · simp only
    split
    · exact ⟨ih1, ih2⟩
    · exact ⟨ih1, ih2⟩
termination_by 4 * sizeOf stmt + 3

theorem convertSingleStatement_nesting (s : GenState) (stmt : ASTStmt) :
    NestingPreserved s (convertSingleStatement s stmt) := by
  unfold convertSingleStatement
  cases stmt with
  | blockStmt statements => exact convertBlock_nesting s statements
  | ifStmt isStatic test ifTrue ifFalse =>
      exact convertIf_nesting s isStatic test ifTrue ifFalse
  | forStmt initializer test next body =>
      exact convertFor_nesting s initializer test next body
  | whileStmt test body => exact convertWhile_nesting s test body
  | doStmt body test => exact convertDo_nesting s body test
  | switchStmt isStatic value cases =>
      exact convertSwitch_nesting s isStatic value cases
  | returnStmt value => exact convertReturn_nesting s value
  | breakStmt => exact convertBreak_nesting s
  | continueStmt => exact convertContinue_nesting s
  | discardStmt => exact ⟨rfl, rfl⟩
  | exprStmt e => exact convertExpressionStatement_nesting s e
termination_by 4 * sizeOf stmt + 2
decreasing_by
  all_goals simp_wf
  all_goals first
    | omega
    | (have h1 := sizeOf_pos_optASTExpr test
       have h2 := sizeOf_pos_optASTExpr next
       omega)

theorem convertBlock_nesting (s : GenState) (statements : List ASTStmt) :
    NestingPreserved s (convertBlock s statements) := by
  have ih := convertStatementList_nesting s statements
  unfold convertBlock
  unfold NestingPreserved at ih ⊢
  rcases h : convertStatementList s statements with ⟨r, s'⟩
  rw [h] at ih
  try rw [h]
  rcases r with - | sts <;> simp_all
termination_by 4 * sizeOf statements + 4

theorem convertStatementList_nesting (s : GenState) (statements : List ASTStmt) :
    NestingPreserved s (convertStatementList s statements) := by
  cases statements with
  | nil =>
    unfold convertStatementList
    exact ⟨rfl, rfl⟩
  | cons stmt rest =>
    have ih1 := convertStatement_nesting s stmt
    unfold convertStatementList
    unfold NestingPreserved at ih1 ⊢
    rcases h1 : convertStatement s stmt with ⟨r1, s'⟩
    rw [h1] at ih1
    try rw [h1]
    rcases r1 with - | st
    · simp_all
    · have ih2 := convertStatementList_nesting s' rest
      unfold NestingPreserved at ih2
      rcases h2 : convertStatementList s' rest with ⟨r2, s''⟩
      rw [h2] at ih2
      try rw [h2]
      rcases r2 with - | sts <;> simp_all
termination_by 4 * sizeOf statements + 3

theorem convertIf_nesting (s : GenState) (isStatic : Bool) (test : ASTExpr)
    (ifTrue : ASTStmt) (ifFalse : Option ASTStmt) :
    NestingPreserved s (convertIf s isStatic test ifTrue ifFalse) := by
  unfold convertIf
  unfold NestingPreserved
  rcases hcc : convertAndCoerce test (.scalar .bool) with ⟨t?, errs⟩
  try rw [hcc]
  rcases t? with - | t
  · simp
  · have ih := convertIfBranches_nesting (s.emitErrors errs) isStatic t
      ifTrue ifFalse
    obtain ⟨ih1, ih2⟩ := ih
    exact ⟨ih1, ih2⟩
termination_by 4 * (sizeOf ifTrue + sizeOf ifFalse) + 1

theorem convertIfBranches_nesting (s : GenState) (isStatic : Bool)
    (t : Expression) (ifTrue : ASTStmt) (ifFalse : Option ASTStmt) :
    NestingPreserved s (convertIfBranches s isStatic t ifTrue ifFalse) := by
  unfold convertIfBranches
  have ih1 := convertStatement_nesting s ifTrue
  unfold NestingPreserved at ih1 ⊢
  rcases h1 : convertStatement s ifTrue with ⟨r1, s2⟩
  rw [h1] at ih1
  try rw [h1]
  obtain ⟨ih11, ih12⟩ := ih1
  clear h1
  rcases r1 with - | tr
  · exact ⟨ih11, ih12⟩
  · have ih2 := convertIfElse_nesting s2 isStatic t
      (ensure_scoped_blocks tr) ifFalse
    obtain ⟨ih21, ih22⟩ := ih2
    exact ⟨ih21.trans ih11, ih22.trans ih12⟩
termination_by 4 * (sizeOf ifTrue + sizeOf ifFalse)
decreasing_by
  all_goals simp_wf
  all_goals first
    | omega
    | (have h1 := sizeOf_pos_optASTStmt ifFalse
       have h2 := sizeOf_pos_astStmt ifTrue
       omega)

theorem convertIfElse_nesting (s : GenState) (isStatic : Bool)
    (t : Expression) (trScoped : Statement) (ifFalse : Option ASTStmt) :
    NestingPreserved s (convertIfElse s isStatic t trScoped ifFalse) := by
  unfold convertIfElse
  unfold NestingPreserved
  rcases ifFalse with - | fstmt
  · exact ⟨rfl, rfl⟩
  · have ih := convertStatement_nesting s fstmt
    unfold NestingPreserved at ih
    rcases h : convertStatement s fstmt with ⟨r, s3⟩
    rw [h] at ih
    rcases r with - | fl <;> simp_all
termination_by 4 * sizeOf ifFalse

theorem convertFor_nesting (s : GenState) (initializer : Option ASTStmt)
    (test next : Option ASTExpr) (body : ASTStmt) :
    NestingPreserved s (convertFor s initializer test next body) := by
  have ih := convertForInner_nesting s.enterLoop initializer test next body
  unfold convertFor
  unfold NestingPreserved at ih ⊢
  rcases h : convertForInner s.enterLoop initializer test next body with ⟨r, s'⟩
  rw [h] at ih
  try rw [h]
  simp_all
termination_by 4 * (sizeOf initializer + sizeOf body) + 8

theorem convertForInner_nesting (s : GenState) (initializer : Option ASTStmt)
    (test next : Option ASTExpr) (body : ASTStmt) :
    NestingPreserved s (convertForInner s initializer test next body) := by
  rcases initializer with - | i
  · unfold convertForInner
    exact convertForTail_nesting s none test next body
  · unfold convertForInner
    have ih1 := convertStatement_nesting s i
    unfold NestingPreserved at ih1 ⊢
    rcases h1 : convertStatement s i with ⟨r1, s1⟩
    rw [h1] at ih1
    try rw [h1]
    rcases r1 with - | ist
    · simp_all
    · have ih2 := convertForTail_nesting s1 (some ist) test next body
      unfold NestingPreserved at ih2
      simp_all
termination_by 4 * (sizeOf initializer + sizeOf body) + 7

theorem convertForTail_nesting (s : GenState) (initStmt : Option Statement)
    (test next : Option ASTExpr) (body : ASTStmt) :
    NestingPreserved s (convertForTail s initStmt test next body) := by
  rcases test with - | t
  · unfold convertForTail
    exact convertForNext_nesting s initStmt none next body
  · unfold convertForTail
    unfold NestingPreserved
    rcases hcc : convertAndCoerce t (.scalar .bool) with ⟨c?, errsT⟩
    try rw [hcc]
    rcases c? with - | tv
    · simp
    · have ih := convertForNext_nesting (s.emitErrors errsT) initStmt
        (some tv) next body
      unfold NestingPreserved at ih
      simp_all
termination_by 4 * sizeOf body + 6

theorem convertForNext_nesting (s : GenState) (initStmt : Option Statement)
    (testExpr : Option Expression) (next : Option ASTExpr) (body : ASTStmt) :
    NestingPreserved s (convertForNext s initStmt testExpr next body) := by
  rcases next with - | n
  · unfold convertForNext
    exact convertForBody_nesting s initStmt testExpr none body
  · unfold convertForNext
    unfold NestingPreserved
    rcases hce : convertExpression n with ⟨n?, errsN⟩
    try rw [hce]
    rcases n? with - | nv
    · simp
    · have ih := convertForBody_nesting (s.emitErrors errsN) initStmt
        testExpr (some nv) body
      unfold NestingPreserved at ih
      simp_all
termination_by 4 * sizeOf body + 5

theorem convertForBody_nesting (s : GenState) (initStmt : Option Statement)
    (testExpr nextExpr : Option Expression) (body : ASTStmt) :
    NestingPreserved s (convertForBody s initStmt testExpr nextExpr body) := by
  have ih := convertStatement_nesting s body
  unfold convertForBody
  unfold NestingPreserved at ih ⊢
  rcases h : convertStatement s body with ⟨r, s3⟩
  rw [h] at ih
  try rw [h]
  rcases r with - | st <;> simp_all
termination_by 4 * sizeOf body + 4

theorem convertWhile_nesting (s : GenState) (test : ASTExpr) (body : ASTStmt) :
    NestingPreserved s (convertWhile s test body) := by
  have ih := convertWhileInner_nesting s.enterLoop test body
  unfold convertWhile
  unfold NestingPreserved at ih ⊢
  rcases h : convertWhileInner s.enterLoop test body with ⟨r, s'⟩
  rw [h] at ih
  try rw [h]
  simp_all
termination_by 4 * sizeOf body + 5

theorem convertWhileInner_nesting (s : GenState) (test : ASTExpr)
    (body : ASTStmt) :
    NestingPreserved s (convertWhileInner s test body) := by
  unfold convertWhileInner
  unfold NestingPreserved
  rcases hcc : convertAndCoerce test (.scalar .bool) with ⟨t?, errs⟩
  try rw [hcc]
  rcases t? with - | t
  · simp
  · simp only
    have ih := convertStatement_nesting (s.emitErrors errs) body
    unfold NestingPreserved at ih
    rcases h : convertStatement (s.emitErrors errs) body with ⟨r, s2⟩
    rw [h] at ih
    try rw [h]
    rcases r with - | st <;> simp_all
termination_by 4 * sizeOf body + 4

theorem convertDo_nesting (s : GenState) (body : ASTStmt) (test : ASTExpr) :
    NestingPreserved s (convertDo s body test) := by
  have ih := convertDoInner_nesting s.enterLoop body test
  unfold convertDo
  unfold NestingPreserved at ih ⊢
  rcases h : convertDoInner s.enterLoop body test with ⟨r, s'⟩
  rw [h] at ih
  try rw [h]
  simp_all
termination_by 4 * sizeOf body + 5

theorem convertDoInner_nesting (s : GenState) (body : ASTStmt)
    (test : ASTExpr) :
    NestingPreserved s (convertDoInner s body test) := by
  unfold convertDoInner
  have ih := convertStatement_nesting s body
  unfold NestingPreserved at ih ⊢
  rcases h : convertStatement s body with ⟨r, s1⟩
  rw [h] at ih
  try rw [h]
  rcases r with - | st
  · simp_all
  · rcases hcc : convertAndCoerce test (.scalar .bool) with ⟨t?, errs⟩
    try rw [hcc]
    rcases t? with - | t <;> simp_all
termination_by 4 * sizeOf body + 4

theorem convertSwitch_nesting (s : GenState) (isStatic : Bool)
    (value : ASTExpr) (cases : List ASTCase) :
    NestingPreserved s (convertSwitch s isStatic value cases) := by
  have ih := convertSwitchInner_nesting s.enterSwitch isStatic value cases
  unfold convertSwitch
  unfold NestingPreserved at ih ⊢
  rcases h : convertSwitchInner s.enterSwitch isStatic value cases with ⟨r, s'⟩
  rw [h] at ih
  try rw [h]
  simp_all
termination_by 4 * sizeOf cases + 2

theorem convertSwitchInner_nesting (s : GenState) (isStatic : Bool)
    (value : ASTExpr) (cases : List ASTCase) :
    NestingPreserved s (convertSwitchInner s isStatic value cases) := by
  unfold convertSwitchInner
  unfold NestingPreserved
  rcases hv : convertExpression value with ⟨v?, errs⟩
  try rw [hv]
  rcases v? with - | v
  · simp
  · simp only
    rcases hc : (if v.type ≠ .scalar .uint then coerce (some v) (.scalar .int)
                 else (some v, [])) with ⟨c?, errs2⟩
    try rw [hc]
    rcases c? with - | v'
    · simp
    · have ih := convertSwitchCases_nesting
        ((s.emitErrors errs).emitErrors errs2) v'.type [] cases
      unfold NestingPreserved at ih
      rcases hcs : convertSwitchCases ((s.emitErrors errs).emitErrors errs2)
          v'.type [] cases with ⟨cs?, s3⟩
      rw [hcs] at ih
      try rw [hcs]
      rcases cs? with - | cs <;> simp_all
termination_by 4 * sizeOf cases + 1

theorem convertSwitchCases_nesting (s : GenState) (valueType : SkType)
    (caseValues : List Int) (cases : List ASTCase) :
    NestingPreserved s (convertSwitchCases s valueType caseValues cases) := by
  cases cases with
  | nil =>
    unfold convertSwitchCases
    exact ⟨rfl, rfl⟩
  | cons c rest =>
    rcases c with ⟨cv, statements⟩
    unfold convertSwitchCases
    unfold NestingPreserved
    rcases cv with - | cvE
    · have ih1 := convertStatementList_nesting s statements
      unfold NestingPreserved at ih1
      rcases h1 : convertStatementList s statements with ⟨r1, s3⟩
      rw [h1] at ih1
      try rw [h1]
      rcases r1 with - | sts
      · simp_all
      · have ih2 := convertSwitchCases_nesting s3 valueType caseValues rest
        unfold NestingPreserved at ih2
        rcases h2 : convertSwitchCases s3 valueType caseValues rest with ⟨r2, s4⟩
        rw [h2] at ih2
        try rw [h2]
        rcases r2 with - | cs <;> simp_all
    · rcases hcc : convertAndCoerce cvE valueType with ⟨ce?, errs⟩
      rcases ce? with - | cve
      · simp_all
      · rcases hgc : getConstantInt cve with - | v
        · simp_all
        · have ih1 := convertStatementList_nesting
            (duplicateCaseCheck (s.emitErrors errs) caseValues (int32Wrap v))
            statements
          unfold NestingPreserved at ih1
          rcases h1 : convertStatementList
              (duplicateCaseCheck (s.emitErrors errs) caseValues (int32Wrap v))
              statements with ⟨r1, s3⟩
          rw [h1] at ih1
          rcases r1 with - | sts
          · simp_all
          · have ih2 := convertSwitchCases_nesting s3 valueType
              (caseValues ++ [int32Wrap v]) rest
            unfold NestingPreserved at ih2
            rcases h2 : convertSwitchCases s3 valueType
                (caseValues ++ [int32Wrap v]) rest with ⟨r2, s4⟩
            rw [h2] at ih2
            rcases r2 with - | cs <;> simp_all
termination_by 4 * sizeOf cases

end

/-- **C10.** Every statement conversion leaves the control-flow nesting
state unchanged: after `convertStatement` returns — whether it produces a
statement or returns `none` after an error — the loop nesting counter and
the switch nesting counter equal their values from before the call; the
counters are incremented only for the dynamic extent of converting a
loop or switch construct (`AutoLoopLevel` / `AutoSwitchLevel`) and are
always restored on exit. -/
theorem convertStatement_preserves_nesting (s : GenState) (stmt : ASTStmt) :
    (convertStatement s stmt).2.loopLevel = s.loopLevel ∧
    (convertStatement s stmt).2.switchLevel = s.switchLevel :=
  convertStatement_nesting s stmt

/-! ## Overload resolution (`IRGenerator::callCost`, `IRGenerator::call`) -/

/-- A function declaration: name, ordered parameter types, return type. -/
structure FunctionDeclaration where
  name : String
  parameters : List SkType
  returnType : SkType
deriving DecidableEq, Repr

/-- The per-argument accumulation loop of `callCost`: sums the coercion
costs, returning `INT_MAX` as soon as one argument cannot coerce to its
parameter type. -/
def callCostLoop : List SkType → List SkType → Int → Int
  | p :: ps, a :: argRest, total =>
    let cost := coercionCost a p
    if cost ≠ INT_MAX then callCostLoop ps argRest (total + cost)
    else INT_MAX
  | _, _, total => total

/-- `IRGenerator::callCost(function, arguments)`: `INT_MAX` when the arity
mismatches, otherwise the sum of per-argument coercion costs (an argument
expression's `coercionCost` is its type's).  `determineFinalTypes`, which
resolves generic intrinsic parameter types, yields the declared parameter
types for the ordinary functions modelled here. -/
def callCost (function : FunctionDeclaration)
    (argumentTypes : List SkType) : Int :=
  if function.parameters.length ≠ argumentTypes.length then INT_MAX
  else callCostLoop function.parameters argumentTypes 0

/-- The candidate loop in `IRGenerator::call` for an overloaded function
reference: starting from `bestCost = INT_MAX` and no best candidate, each
candidate strictly cheaper than the best so far replaces it. -/
def overloadLoop (argumentTypes : List SkType) :
    List FunctionDeclaration → Int → Option FunctionDeclaration →
    Option FunctionDeclaration
  | [], _, best => best
  | f :: fns, bestCost, best =>
    let cost := callCost f argumentTypes
    if cost < bestCost then overloadLoop argumentTypes fns cost (some f)
    else overloadLoop argumentTypes fns bestCost best

/-- Overload selection for a name with multiple function declarations
(`ref.fFunctions.size() > 1` in `IRGenerator::call`): the outcome of the
candidate loop; `none` means "no match" is reported. -/
def selectOverload (functions : List FunctionDeclaration)
    (argumentTypes : List SkType) : Option FunctionDeclaration :=
  overloadLoop argumentTypes functions INT_MAX none

theorem overloadLoop_none_iff (args : List SkType) :
    ∀ (fns : List FunctionDeclaration) (bestCost : Int)
      (best : Option FunctionDeclaration),
    overloadLoop args fns bestCost best = none ↔
      (best = none ∧ ∀ g ∈ fns, ¬ callCost g args < bestCost) := by
  intro fns
  induction fns with
  | nil =>
    intro bestCost best
    simp [overloadLoop]
  | cons f fns ih =>
    intro bestCost best
    unfold overloadLoop
    simp only
    split
    · rw [ih]
      constructor
      · rintro ⟨h, -⟩
        exact absurd h (by simp)
      · rintro ⟨-, hall⟩
        exact absurd (hall f (List.mem_cons_self f fns)) (by simp_all)
    · rw [ih]
      constructor
      · rintro ⟨hb, hall⟩
        refine ⟨hb, ?_⟩
        intro g hg
        rcases List.mem_cons.mp hg with h | h
        · subst h
          assumption
        · exact hall g h
      · rintro ⟨hb, hall⟩
        exact ⟨hb, fun g hg => hall g (List.mem_cons_of_mem _ hg)⟩

theorem overloadLoop_some_spec (args : List SkType) :
    ∀ (fns : List FunctionDeclaration) (bestCost : Int)
      (best : Option FunctionDeclaration) (f : FunctionDeclaration),
    overloadLoop args fns bestCost best = some f →
      (best = some f ∧ ∀ g ∈ fns, ¬ callCost g args < bestCost) ∨
      (callCost f args < bestCost ∧
        ∃ pre post, fns = pre ++ f :: post ∧
          (∀ g ∈ pre, callCost f args < callCost g args) ∧
          (∀ g ∈ post, ¬ callCost g args < callCost f args)) := by
  intro fns
  induction fns with
  | nil =>
    intro bestCost best f h
    left
    refine ⟨?_, by simp⟩
    simpa [overloadLoop] using h
  | cons g fns ih =>
    intro bestCost best f h
    unfold overloadLoop at h
    simp only at h
    split at h
    · rename_i hlt
      rcases ih _ _ _ h with ⟨heq, hall⟩ | ⟨hflt, pre, post, hsplit, hpre, hpost⟩
      · obtain rfl : g = f := by simpa using heq
        right
        exact ⟨hlt, [], fns, rfl, by simp, hall⟩
      · right
        refine ⟨lt_trans hflt hlt, g :: pre, post, by rw [hsplit]; rfl, ?_, hpost⟩
        intro g' hg'
        rcases List.mem_cons.mp hg' with h' | h'
        · subst h'
          exact hflt
        · exact hpre g' h'
    · rename_i hnlt
      rcases ih _ _ _ h with ⟨heq, hall⟩ | ⟨hflt, pre, post, hsplit, hpre, hpost⟩
      · left
        refine ⟨heq, ?_⟩
        intro g' hg'
        rcases List.mem_cons.mp hg' with h' | h'
        · subst h'
          assumption
        · exact hall g' h'
      · right
        refine ⟨hflt, g :: pre, post, by rw [hsplit]; rfl, ?_, hpost⟩
        intro g' hg'
        rcases List.mem_cons.mp hg' with h' | h'
        · subst h'
          omega
        · exact hpre g' h'

theorem callCostLoop_INT_MAX :
    ∀ (ps argTypes : List SkType) (total : Int),
    (∃ pa ∈ ps.zip argTypes, coercionCost pa.2 pa.1 = INT_MAX) →
    callCostLoop ps argTypes total = INT_MAX := by
  intro ps
  induction ps with
  | nil =>
    intro argTypes total h
    simp at h
  | cons p ps ih =>
    intro argTypes total h
    rcases argTypes with - | ⟨a, argRest⟩
    · simp at h
    · rcases h with ⟨pa, hmem, hmax⟩
      rcases List.mem_cons.mp (by simpa [List.zip_cons_cons] using hmem) with h' | h'
      · subst h'
        unfold callCostLoop
        simp only at hmax ⊢
        rw [if_neg (by simp [hmax])]
      · unfold callCostLoop
        simp only
        split
        · exact ih argRest _ ⟨pa, h', hmax⟩
        · rfl

/-- **C8.** Overload resolution for a call to a name with multiple function
declarations selects the candidate with minimum `callCost`; `callCost` is
`INT_MAX` (the call invalid) when the arity mismatches or any argument
fails to coerce; no candidate at `INT_MAX` is ever selected and selection
fails exactly when every candidate is; among candidates of equal minimal
cost the first one found wins (every earlier candidate is strictly more
expensive); and the zero-cost exact match `f(int)` is selected over the
widening match `f(float)` for an `int` argument. -/
theorem call_overload_resolution :
    (∀ (function : FunctionDeclaration) (args : List SkType),
        function.parameters.length ≠ args.length →
        callCost function args = INT_MAX) ∧
    (∀ (function : FunctionDeclaration) (args : List SkType),
        function.parameters.length = args.length →
        (∃ pa ∈ function.parameters.zip args, coercionCost pa.2 pa.1 = INT_MAX) →
        callCost function args = INT_MAX) ∧
    (∀ (fns : List FunctionDeclaration) (args : List SkType),
        selectOverload fns args = none ↔
          ∀ g ∈ fns, ¬ callCost g args < INT_MAX) ∧
    (∀ (fns : List FunctionDeclaration) (args : List SkType)
       (f : FunctionDeclaration),
        selectOverload fns args = some f →
          callCost f args < INT_MAX ∧
          (∀ g ∈ fns, ¬ callCost g args < callCost f args) ∧
          ∃ pre post, fns = pre ++ f :: post ∧
            ∀ g ∈ pre, callCost f args < callCost g args) ∧
    selectOverload
        [⟨"f", [.scalar .int], .void⟩, ⟨"f", [.scalar .float], .void⟩]
        [.scalar .int] =
      some ⟨"f", [.scalar .int], .void⟩ ∧
    callCost ⟨"f", [.scalar .int], .void⟩ [.scalar .int] = 0 ∧
    callCost ⟨"f", [.scalar .float], .void⟩ [.scalar .int] = 1 := by
  refine ⟨?_, ?_, ?_, ?_, by decide, by decide, by decide⟩
  · intro function args h
    unfold callCost
    rw [if_pos h]
  · intro function args hlen hex
    unfold callCost
    rw [if_neg (by omega)]
    exact callCostLoop_INT_MAX _ _ _ hex
  · intro fns args
    unfold selectOverload
    rw [overloadLoop_none_iff]
    simp
  · intro fns args f h
    rcases overloadLoop_some_spec args fns INT_MAX none f h with
      ⟨heq, -⟩ | ⟨hlt, pre, post, hsplit, hpre, hpost⟩
    · exact absurd heq (by simp)
    · refine ⟨hlt, ?_, pre, post, hsplit, hpre⟩
      intro g hg
      rw [hsplit] at hg
      rcases List.mem_append.mp hg with h' | h'
      · have := hpre g h'
        omega
      · rcases List.mem_cons.mp h' with h'' | h''
        · subst h''
          omega
        · exact hpost g h''

/-- Witness for C8: the two-candidate scenario — `f(int)` (cost 0, the
arity and coercions legal) is selected; `f(float)` with a `bool` argument
is `INT_MAX` (coercion failure), and arity mismatch is `INT_MAX`. -/
theorem call_overload_resolution_witness :
    (FunctionDeclaration.mk "f" [.scalar .int] .void).parameters.length ≠
      ([] : List SkType).length ∧
    callCost ⟨"f", [.scalar .int], .void⟩ [] = INT_MAX ∧
    selectOverload
        [⟨"f", [.scalar .int], .void⟩, ⟨"f", [.scalar .float], .void⟩]
        [.scalar .int] =
      some ⟨"f", [.scalar .int], .void⟩ :=
  ⟨by decide,
   call_overload_resolution.1 ⟨"f", [.scalar .int], .void⟩ [] (by decide),
   call_overload_resolution.2.2.2.2.1⟩

/-! ## Array sizes in variable declarations (`convertVarDeclarations`) -/

/-- The per-dimension array-size handling of
`IRGenerator::convertVarDeclarations`: the raw size is converted and
coerced to `int`; only an `IntLiteral` result is accepted — positive
literals build the array type (the stored column count goes through the
`(int)` cast), non-positive literals report "array size must be positive",
and anything else — including a reference to a `const` variable —
reports "array size must be specified".  (An absent size, the unsized
`type[]` case, takes a separate branch not modelled here.) -/
def convertVarArraySize (type : SkType) (rawSize : ASTExpr) :
    Option (SkType × Expression) × List String :=
  match convertAndCoerce rawSize (.scalar .int) with
  | (none, errs) => (none, errs)
  | (some size, errs) =>
    match size with
    | .intLiteral count =>
      if count ≤ 0 then (none, errs ++ ["array size must be positive"])
      else (some (.array type (int32Wrap count), .intLiteral count), errs)
    | _ => (none, errs ++ ["array size must be specified"])

/-- **C9 (counterexample).** With `const int x = 5;` in scope, the size
expression `x` of `int arr[x];` converts to a `VariableReference` — not an
`IntLiteral` — so the declaration does not succeed with array size 5: it
reports "array size must be specified" and yields no IR node. -/
theorem convertVarArraySize_const_variable_fails :
    convertVarArraySize (.scalar .int)
        (.ident "x" (.scalar .int) true (some (.intLiteral 5)) true) =
      (none, ["array size must be specified"]) ∧
    getConstantInt
        (.variableReference "x" (.scalar .int) true (some (.intLiteral 5))) =
      some 5 :=
  ⟨rfl, rfl⟩

/-- **C9 (amended).** An array size in a variable declaration must be a
positive integer-literal compile-time constant: a non-positive literal
fails with "array size must be positive"; a positive literal `n` succeeds
with array size `n`; a size that is not an integer literal after coercion —
including a reference to a `const int` variable, which stays a variable
reference — fails with "array size must be specified". -/
theorem convertVarArraySize_spec :
    (∀ (ty : SkType) (v : Int), v ≤ 0 →
        convertVarArraySize ty (.intLit v) =
          (none, ["array size must be positive"])) ∧
    (∀ (ty : SkType) (v : Int), 0 < v →
        convertVarArraySize ty (.intLit v) =
          (some (.array ty (int32Wrap v), .intLiteral v), [])) ∧
    (∀ (ty : SkType) (name : String) (isConst : Bool)
       (initialValue : Option Expression),
        convertVarArraySize ty
            (.ident name (.scalar .int) isConst initialValue true) =
          (none, ["array size must be specified"])) := by
  refine ⟨?_, ?_, ?_⟩
  · intro ty v hv
    unfold convertVarArraySize
    simp [convertAndCoerce, convertExpression, coerce, Expression.type, hv]
  · intro ty v hv
    unfold convertVarArraySize
    simp [convertAndCoerce, convertExpression, coerce, Expression.type]
    omega
  · intro ty name isConst initialValue
    rfl

/-- Witness for C9's amended claim: `int arr[-1]` fails with "array size
must be positive", `int arr[5]` succeeds with array size 5, and the
const-variable size fails with "array size must be specified". -/
theorem convertVarArraySize_spec_witness :
    ((-1 : Int) ≤ 0 ∧
      convertVarArraySize (.scalar .int) (.intLit (-1)) =
        (none, ["array size must be positive"])) ∧
    ((0 : Int) < 5 ∧
      convertVarArraySize (.scalar .int) (.intLit 5) =
        (some (.array (.scalar .int) (int32Wrap 5), .intLiteral 5), [])) ∧
    convertVarArraySize (.scalar .int)
        (.ident "x" (.scalar .int) true (some (.intLiteral 5)) true) =
      (none, ["array size must be specified"]) :=
  ⟨⟨by decide, convertVarArraySize_spec.1 (.scalar .int) (-1) (by decide)⟩,
   ⟨by decide, convertVarArraySize_spec.2.1 (.scalar .int) 5 (by decide)⟩,
   convertVarArraySize_spec.2.2 (.scalar .int) "x" true (some (.intLiteral 5))⟩

end SkSL
